import Mathlib

set_option autoImplicit false

/-!
Verification development for the playwright-result-scrubber repository.

The development shallowly embeds the repository's rule-based redaction
engine: the regular-expression machinery used by the scrubbing rules
(modelling the JS `RegExp` / `String.prototype.replace` semantics for the
construct subset the rules use), the rule model and `applyScrubRules` from
`abstract-scrubber.ts`, the locator-rule factory from `locator-rules.ts`,
the configuration parsing of `config-parser.ts` (both the class-based and
the functional variant, plus the inline variant of `index.ts`), and the
file-level behaviour of the HTML and trace scrubbers as explicit
effect-producing functions over a modelled file system.

External collaborators (Node `path`, `Buffer` base64, zip codecs) are not
repository code; they are modelled by explicit executable Lean functions,
each marked as a modelled external library in its doc comment.
-/

namespace Scrub

/-- ASCII lowercasing; models the case folding performed by the JS regular
expression `i` flag on the ASCII identifiers the rules interpolate. -/
def lowerc (c : Char) : Char :=
  if 'A' ≤ c ∧ c ≤ 'Z' then Char.ofNat (c.toNat + 32) else c

/-- Character comparison, case-insensitive when `ci` is true (the `i` flag). -/
def eqc (ci : Bool) (a b : Char) : Bool :=
  if ci then lowerc a == lowerc b else a == b

/-- The character classes occurring in the scrubbing rules' patterns. -/
inductive CharClass where
  | oneOf (cs : List Char)
  | noneOf (cs : List Char)
  | space
  | word
  | digit
  deriving Repr, DecidableEq

/-- JS `\s` on the ASCII range. -/
def isSpaceChar (c : Char) : Bool :=
  c == ' ' || c == '\t' || c == '\n' || c == '\r' || c == '\x0b' || c == '\x0c'

/-- JS `\w`: ASCII letters, digits and underscore. -/
def isWordChar (c : Char) : Bool :=
  ('a' ≤ c && c ≤ 'z') || ('A' ≤ c && c ≤ 'Z') || ('0' ≤ c && c ≤ '9') || c == '_'

/-- JS `\d`. -/
def isDigitChar (c : Char) : Bool :=
  '0' ≤ c && c ≤ '9'

/-- Whether character `c` is in class `cc` (under the `i` flag when `ci`). -/
def cmatch (ci : Bool) (cc : CharClass) (c : Char) : Bool :=
  match cc with
  | .oneOf cs => cs.any (fun d => eqc ci c d)
  | .noneOf cs => !(cs.any (fun d => eqc ci c d))
  | .space => isSpaceChar c
  | .word => isWordChar c
  | .digit => isDigitChar c

/-- Regular-expression syntax trees for the construct subset the repository's
rules use: literals, character classes, greedy `*` `+` `?` over a class,
concatenation and numbered capturing groups (no alternation is used). -/
inductive Regex where
  | eps
  | lit (c : Char)
  | cls (cc : CharClass)
  | star (cc : CharClass)
  | plus (cc : CharClass)
  | quest (cc : CharClass)
  | seq (a b : Regex)
  | group (n : Nat) (r : Regex)
  deriving Repr, DecidableEq

/-- Concatenation of a list of regexes. -/
def rseq (rs : List Regex) : Regex := rs.foldr .seq .eps

/-- Literal regex elements for each character of a character list. -/
def litsL (w : List Char) : List Regex := w.map .lit

/-- The regex matching a literal string. -/
def litS (s : String) : Regex := rseq (s.data.map .lit)

/-- Whether the pattern characters `w` are a prefix of the input (under the
`i` flag when `ci`); the order of `eqc`'s arguments is that of the matcher
(input character first). -/
def ciIsPre (ci : Bool) : List Char → List Char → Bool
  | [], _ => true
  | _ :: _, [] => false
  | c :: cs, d :: ds => eqc ci d c && ciIsPre ci cs ds

/-- Captured groups: group number paired with the captured text. -/
abbrev Caps := List (Nat × String)

/-- A matching continuation: remaining input and captures so far to result. -/
abbrev Cont := List Char → Caps → Option (List Char × Caps)

/-- Length of the run of characters of class `cc` at the head of the input. -/
def leadCount (ci : Bool) (cc : CharClass) : List Char → Nat
  | [] => 0
  | c :: cs => if cmatch ci cc c then leadCount ci cc cs + 1 else 0

/-- Greedy backtracking over a class run: try consuming `j` characters with
continuation `k`, largest first (JS greedy quantifier order). -/
def tryFrom (s : List Char) (caps : Caps) (k : Cont) : Nat → Option (List Char × Caps)
  | 0 => k s caps
  | j + 1 =>
    match k (s.drop (j + 1)) caps with
    | some r => some r
    | none => tryFrom s caps k j

/-- As `tryFrom`, but consuming at least one character (for `+`). -/
def tryFromPos (s : List Char) (caps : Caps) (k : Cont) : Nat → Option (List Char × Caps)
  | 0 => none
  | j + 1 =>
    match k (s.drop (j + 1)) caps with
    | some r => some r
    | none => tryFromPos s caps k j

/-- The backtracking matcher, in continuation style.  `rmatch ci r s caps k`
matches `r` against a prefix of `s` and runs `k` on the rest; alternatives
are tried in the JS priority order (greedy quantifiers longest first), so the
first success is the JS match. -/
def rmatch (ci : Bool) : Regex → List Char → Caps → Cont → Option (List Char × Caps)
  | .eps, s, caps, k => k s caps
  | .lit c, s, caps, k =>
    match s with
    | [] => none
    | x :: xs => if eqc ci x c then k xs caps else none
  | .cls cc, s, caps, k =>
    match s with
    | [] => none
    | x :: xs => if cmatch ci cc x then k xs caps else none
  | .star cc, s, caps, k => tryFrom s caps k (leadCount ci cc s)
  | .plus cc, s, caps, k => tryFromPos s caps k (leadCount ci cc s)
  | .quest cc, s, caps, k =>
    match s with
    | [] => k s caps
    | x :: xs =>
      if cmatch ci cc x then
        match k xs caps with
        | some r => some r
        | none => k s caps
      else k s caps
  | .seq a b, s, caps, k => rmatch ci a s caps (fun s' caps' => rmatch ci b s' caps' k)
  | .group n r, s, caps, k =>
    rmatch ci r s caps
      (fun s' caps' => k s' ((n, String.mk (s.take (s.length - s'.length))) :: caps'))

/-- Match `re` at the start of `s`: remaining input and captures of the match. -/
def execAt (ci : Bool) (re : Regex) (s : List Char) : Option (List Char × Caps) :=
  rmatch ci re s [] (fun s' caps => some (s', caps))

/-- Leftmost match at or after the current position: `searchIn ci re s pos`
scans forward and returns the match position, the input remaining after the
match, and the captures (JS leftmost-match search). -/
def searchIn (ci : Bool) (re : Regex) : List Char → Nat → Option (Nat × List Char × Caps)
  | [], pos =>
    match execAt ci re [] with
    | some (rest, caps) => some (pos, rest, caps)
    | none => none
  | c :: tail, pos =>
    match execAt ci re (c :: tail) with
    | some (rest, caps) => some (pos, rest, caps)
    | none => searchIn ci re tail (pos + 1)

/-- Captured text of group `n` (empty for a group that did not capture,
as JS substitutes the empty string for such a reference). -/
def capLookup (caps : Caps) (n : Nat) : String :=
  match caps.find? (fun p => p.1 == n) with
  | some p => p.2
  | none => ""

/-- Replacement-template substitution: `$1`…`$9` insert the corresponding
captured group, `$$` a dollar sign, anything else is literal (the subset of
the JS replacement grammar the repository's rules use). -/
def applyTemplate (caps : Caps) : List Char → List Char
  | [] => []
  | c :: rest =>
    if c = '$' then
      match rest with
      | [] => ['$']
      | d :: rest' =>
        if '1' ≤ d ∧ d ≤ '9' then
          (capLookup caps (d.toNat - 48)).data ++ applyTemplate caps rest'
        else if d = '$' then '$' :: applyTemplate caps rest'
        else '$' :: d :: applyTemplate caps rest'
    else c :: applyTemplate caps rest

/-- One pass of global replacement (JS `String.replace` with the `g` flag):
replace each successive leftmost match, advancing one character past an
empty match.  `fuel` bounds the number of replacements; `length s + 1`
always suffices. -/
def replaceGo (ci : Bool) (re : Regex) (repl : List Char) : Nat → List Char → List Char
  | 0, s => s
  | fuel + 1, s =>
    match searchIn ci re s 0 with
    | none => s
    | some (pos, rest, caps) =>
      let matchedLen := s.length - pos - rest.length
      let out := applyTemplate caps repl
      if matchedLen = 0 then
        match rest with
        | [] => s.take pos ++ out
        | _ =>
          s.take pos ++ out ++ (s.drop pos).take 1 ++
            replaceGo ci re repl fuel (s.drop (pos + 1))
      else
        s.take pos ++ out ++ replaceGo ci re repl fuel rest

/-- JS `content.replace(pattern, replacement)` for a global regex. -/
def regexReplace (ci : Bool) (re : Regex) (repl s : String) : String :=
  String.mk (replaceGo ci re repl.data (s.data.length + 1) s.data)

/-- An atom read by the pattern parser: a quantifiable single-character item
(literal or class) or a parenthesised group. -/
inductive PAtom where
  | single (base : Char) (cc : CharClass) (isLit : Bool)
  | grouped (r : Regex)

/-- Escape sequences the parser accepts (`RegExp` constructor model): class
shorthands and escaped metacharacters. -/
def parseEscape (c : Char) : Option (Char × CharClass × Bool) :=
  if c = 's' then some (' ', .space, false)
  else if c = 'w' then some ('w', .word, false)
  else if c = 'd' then some ('0', .digit, false)
  else if c = '.' ∨ c = '(' ∨ c = ')' ∨ c = '[' ∨ c = ']' ∨ c = '\\' ∨ c = '/' ∨
          c = '*' ∨ c = '+' ∨ c = '?' ∨ c = '$' ∨ c = '^' ∨ c = '|' ∨ c = '-' then
    some (c, .oneOf [c], true)
  else none

/-- Parse the body of a character class up to `]`: the listed characters
(escapes allowed), no ranges. -/
def parseClassBody : List Char → Option (List Char × List Char)
  | [] => none
  | ']' :: rest => some ([], rest)
  | '\\' :: c :: rest =>
    match parseClassBody rest with
    | some (cs, rest') => some (c :: cs, rest')
    | none => none
  | c :: rest =>
    match parseClassBody rest with
    | some (cs, rest') => some (c :: cs, rest')
    | none => none

/-- Metacharacters that cannot stand bare in the parsed subset. -/
def isBareMeta (c : Char) : Bool :=
  c = '*' || c = '+' || c = '?' || c = ')' || c = ']' || c = '|' || c = '^' || c = '$'

mutual

/-- Parse one atom of a pattern.  Returns the atom, the remaining input and
the next free group number. -/
def parseAtom (fuel : Nat) : List Char → Nat → Option (PAtom × List Char × Nat)
  | [], _ => none
  | '\\' :: c :: rest, g =>
    match parseEscape c with
    | some (base, cc, isLit) => some (.single base cc isLit, rest, g)
    | none => none
  | '\\' :: [], _ => none
  | '[' :: rest, g =>
    match rest with
    | '^' :: rest' =>
      match parseClassBody rest' with
      | some (cs, rest'') => some (.single ' ' (.noneOf cs) false, rest'', g)
      | none => none
    | _ =>
      match parseClassBody rest with
      | some (cs, rest') => some (.single ' ' (.oneOf cs) false, rest', g)
      | none => none
  | '(' :: rest, g =>
    match fuel with
    | 0 => none
    | fuel' + 1 =>
      match parseSeq fuel' rest (g + 1) with
      | some (r, ')' :: rest', g') => some (.grouped (.group g r), rest', g')
      | _ => none
  | c :: rest, g =>
    if isBareMeta c then none
    else some (.single c (.oneOf [c]) true, rest, g)

/-- Parse a pattern sequence (stops at `)` or the end of the input). -/
def parseSeq (fuel : Nat) : List Char → Nat → Option (Regex × List Char × Nat)
  | cs, g =>
    match fuel with
    | 0 => none
    | fuel' + 1 =>
      match cs with
      | [] => some (.eps, [], g)
      | ')' :: rest => some (.eps, ')' :: rest, g)
      | _ =>
        match parseAtom fuel' cs g with
        | none => none
        | some (atom, rest, g') =>
          let quant : Option (CharClass → Regex) :=
            match rest with
            | '*' :: _ => some .star
            | '+' :: _ => some .plus
            | '?' :: _ => some .quest
            | _ => none
          let (item, rest') : Regex × List Char :=
            match atom, quant with
            | .single _ cc _, some q => (q cc, rest.drop 1)
            | .single base cc isLit, none =>
              (if isLit then .lit base else .cls cc, rest)
            | .grouped r, _ => (r, rest)
          match atom, quant with
          | .grouped _, some _ => none
          | _, _ =>
            match parseSeq fuel' rest' g' with
            | some (r, rest'', g'') => some (.seq item r, rest'', g'')
            | none => none

end

/-- Model of the JS `RegExp` constructor on the construct subset the
repository's rules use: parses the pattern source to a syntax tree; an
unsupported or ill-formed pattern yields `none` (the constructor throws). -/
def compileStr (src : String) : Option Regex :=
  match parseSeq (src.data.length + 1) src.data 1 with
  | some (r, [], _) => some r
  | _ => none

/-- A rule's pattern as the repository stores it: a raw source string
(compiled with flag `g` at application time) or a pre-compiled regular
expression (source text, `i` flag, syntax tree). -/
inductive RulePattern where
  | raw (src : String)
  | compiled (src : String) (ci : Bool) (re : Regex)
  deriving DecidableEq

/-- `ScrubbingRule` of `types.ts`: a pattern and a replacement template. -/
structure ScrubbingRule where
  pattern : RulePattern
  replacement : String
  deriving DecidableEq

/-- The pattern's source text. -/
def ScrubbingRule.patternSrc : ScrubbingRule → String
  | ⟨.raw src, _⟩ => src
  | ⟨.compiled src _ _, _⟩ => src

/-- A compiled pattern: `i` flag and syntax tree. -/
structure CompiledRegex where
  ci : Bool
  re : Regex
  deriving DecidableEq

/-- `AbstractScrubber.createRegexPattern`: string patterns are compiled with
the global flag (which can fail, modelling a throwing constructor);
`RegExp` patterns are used as compiled. -/
def createRegexPattern (rule : ScrubbingRule) : Option CompiledRegex :=
  match rule.pattern with
  | .raw src => (compileStr src).map (fun re => ⟨false, re⟩)
  | .compiled _ ci re => some ⟨ci, re⟩

/-- `AbstractScrubber.applyScrubRules`: fold every rule over the cumulative
content; a rule whose pattern fails to compile is skipped (the `try`/`catch`
logs a warning and continues with the remaining rules). -/
def applyScrubRules (rules : List ScrubbingRule) (content : String) : String :=
  rules.foldl
    (fun scrubbedContent rule =>
      match createRegexPattern rule with
      | some cre => regexReplace cre.ci cre.re rule.replacement scrubbedContent
      | none => scrubbedContent)
    content

/-- `AbstractScrubber.hasContentChanged`: exact string comparison. -/
def hasContentChanged (original scrubbed : String) : Bool :=
  original != scrubbed

/-! ## The locator-rule factory (`locator-rules.ts`)

Each generated rule's pattern is given twice, faithfully to the source: as
the interpolated pattern source string (the text the factory passes to the
`RegExp` constructor) and as its syntax tree (what the constructor builds
from that text).  The trees are cross-checked against the parser model
`compileStr` below. -/

/-- `maskingStrategy` of `LocatorRuleConfig` (`types.ts`). -/
inductive MaskingStrategy where
  | asterisks
  | placeholder
  | custom
  deriving DecidableEq, Repr

/-- `LocatorRuleConfig` of `types.ts`. -/
structure LocatorRuleConfig where
  sensitiveIdentifiers : List String
  maskingStrategy : MaskingStrategy
  customMask : Option String := none
  caseSensitive : Bool := false
  deriving DecidableEq

/-- A partial `LocatorRuleConfig` (the factory methods take
`Partial<LocatorRuleConfig>`); an absent field keeps the default. -/
structure PartialLocatorRuleConfig where
  sensitiveIdentifiers : Option (List String) := none
  maskingStrategy : Option MaskingStrategy := none
  customMask : Option String := none
  caseSensitive : Option Bool := none

/-- The object spread `{ ...DEFAULT_CONFIG, ...config }`. -/
def mergeConfig (base : LocatorRuleConfig) (p : PartialLocatorRuleConfig) :
    LocatorRuleConfig where
  sensitiveIdentifiers := p.sensitiveIdentifiers.getD base.sensitiveIdentifiers
  maskingStrategy := p.maskingStrategy.getD base.maskingStrategy
  customMask := p.customMask.orElse (fun _ => base.customMask)
  caseSensitive := p.caseSensitive.getD base.caseSensitive

/-- `LocatorRulesFactory.DEFAULT_CONFIG`. -/
def DEFAULT_CONFIG : LocatorRuleConfig where
  sensitiveIdentifiers :=
    ["password", "pass", "pwd", "secret", "token", "key",
     "username", "user", "login", "email", "mail",
     "credit", "card", "ssn", "social", "phone", "mobile",
     "address", "zip", "postal", "account", "number"]
  maskingStrategy := .asterisks
  caseSensitive := false

/-- `LocatorRulesFactory.getMaskValue` (`||` treats an empty custom mask as
absent). -/
def getMaskValue (config : LocatorRuleConfig) : String :=
  match config.maskingStrategy with
  | .asterisks => "********"
  | .placeholder => "[MASKED]"
  | .custom =>
    match config.customMask with
    | some m => if m = "" then "********" else m
    | none => "********"

/-- The `i` flag of a generated rule: `config.caseSensitive ? 'g' : 'gi'`. -/
def ruleCi (config : LocatorRuleConfig) : Bool :=
  !config.caseSensitive

/-- The class `["'']` of the pattern templates. -/
def clsQ : CharClass := .oneOf ['"', '\'', '\'']

/-- The class `[^"'']`. -/
def clsNotQ : CharClass := .noneOf ['"', '\'', '\'']

/-- The class `['"]`. -/
def clsSQ : CharClass := .oneOf ['\'', '"']

/-- The class `[^''"]`. -/
def clsNotSQ : CharClass := .noneOf ['\'', '\'', '"']

/-- The class `[^\)]`. -/
def clsNotParen : CharClass := .noneOf [')']

/-- The class `[^\]]`. -/
def clsNotBracket : CharClass := .noneOf [']']

/-- The class `[^,]`. -/
def clsNotComma : CharClass := .noneOf [',']

/-- Literal regex elements for each character of a string. -/
def litsOf (s : String) : List Regex := s.data.map .lit

/-- The tail shared by every template: `\.<method>\s*\(\s*["'']` closing
group 1, then the value group `([^"'']*)` and the closing group
`((["'']\s*\)))`.  `selector` is the part of group 1 before the method
call. -/
def locatorRuleAst (selector : List Regex) (method : String) : Regex :=
  rseq
    [.group 1 (rseq (selector ++ [Regex.lit '.'] ++ litsOf method ++
        [Regex.star .space, Regex.lit '(', Regex.star .space, Regex.cls clsQ])),
     .group 2 (rseq [Regex.star clsNotQ]),
     .group 3 (rseq [Regex.group 4 (rseq [Regex.cls clsQ, Regex.star .space, Regex.lit ')'])])]

/-- The source-text tail `\\.<method>\\s*\\(\\s*["''])([^"'']*)((["'']\\s*\\)))`. -/
def locatorRuleSrcTail (method : String) : String :=
  "\\." ++ method ++ "\\s*\\(\\s*[\"''])([^\"'']*)(([\"'']\\s*\\)))"

/-- Rule 1: CSS selectors with id attribute. -/
def cssIdRuleSrc (identifier : String) : String :=
  "(\\.locator\\s*\\(\\s*[\"''][^\"'']*#[^\"'']*" ++ identifier ++
    "[^\"'']*[\"'']\\s*\\)" ++ locatorRuleSrcTail "fill"

def cssIdRuleAst (identifier : String) : Regex :=
  locatorRuleAst
    (litsOf ".locator" ++
      [Regex.star .space, Regex.lit '(', Regex.star .space, Regex.cls clsQ,
       Regex.star clsNotQ, Regex.lit '#', Regex.star clsNotQ] ++
      litsOf identifier ++
      [Regex.star clsNotQ, Regex.cls clsQ, Regex.star .space, Regex.lit ')'])
    "fill"

/-- Rule 2: CSS selectors with attribute selectors. -/
def cssAttrRuleSrc (identifier : String) : String :=
  "(\\.locator\\s*\\(\\s*[\"''][^\"'']*\\[[^\\]]*" ++ identifier ++
    "[^\\]]*\\][^\"'']*[\"'']\\s*\\)" ++ locatorRuleSrcTail "fill"

def cssAttrRuleAst (identifier : String) : Regex :=
  locatorRuleAst
    (litsOf ".locator" ++
      [Regex.star .space, Regex.lit '(', Regex.star .space, Regex.cls clsQ,
       Regex.star clsNotQ, Regex.lit '[', Regex.star clsNotBracket] ++
      litsOf identifier ++
      [Regex.star clsNotBracket, Regex.lit ']', Regex.star clsNotQ,
       Regex.cls clsQ, Regex.star .space, Regex.lit ')'])
    "fill"

/-- The selector prefix shared by the three XPath attribute rules:
`\.locator\s*\(\s*["'']//[^"'']*\[@<attr>\s*=\s*['"][^''"]*`. -/
def xpathAttrSelector (attr identifier : String) : List Regex :=
  litsOf ".locator" ++
    [Regex.star .space, Regex.lit '(', Regex.star .space, Regex.cls clsQ,
     Regex.lit '/', Regex.lit '/', Regex.star clsNotQ, Regex.lit '[',
     Regex.lit '@'] ++
    litsOf attr ++
    [Regex.star .space, Regex.lit '=', Regex.star .space, Regex.cls clsSQ,
     Regex.star clsNotSQ] ++
    litsOf identifier ++
    [Regex.star clsNotSQ, Regex.cls clsSQ, Regex.star clsNotQ,
     Regex.cls clsQ, Regex.star .space, Regex.lit ')']

def xpathAttrRuleSrc (attr identifier : String) : String :=
  "(\\.locator\\s*\\(\\s*[\"'']//[^\"'']*\\[@" ++ attr ++
    "\\s*=\\s*['\"][^''\"]*" ++ identifier ++ "[^''\"]*['\"][^\"'']*[\"'']\\s*\\)" ++
    locatorRuleSrcTail "fill"

/-- Rule 3: XPath selectors with id attribute. -/
def xpathIdRuleSrc (identifier : String) : String := xpathAttrRuleSrc "id" identifier

def xpathIdRuleAst (identifier : String) : Regex :=
  locatorRuleAst (xpathAttrSelector "id" identifier) "fill"

/-- Rule 4: XPath selectors with name attribute. -/
def xpathNameRuleSrc (identifier : String) : String := xpathAttrRuleSrc "name" identifier

def xpathNameRuleAst (identifier : String) : Regex :=
  locatorRuleAst (xpathAttrSelector "name" identifier) "fill"

/-- Rule 5: XPath selectors with class attribute. -/
def xpathClassRuleSrc (identifier : String) : String := xpathAttrRuleSrc "class" identifier

def xpathClassRuleAst (identifier : String) : Regex :=
  locatorRuleAst (xpathAttrSelector "class" identifier) "fill"

/-- Rule 6: XPath selectors with the `contains()` function. -/
def xpathContainsRuleSrc (identifier : String) : String :=
  "(\\.locator\\s*\\(\\s*[\"'']//[^\"'']*contains\\s*\\([^,]+,\\s*['\"][^''\"]*" ++
    identifier ++ "[^''\"]*['\"]\\)[^\"'']*[\"'']\\s*\\)" ++ locatorRuleSrcTail "fill"

def xpathContainsRuleAst (identifier : String) : Regex :=
  locatorRuleAst
    (litsOf ".locator" ++
      [Regex.star .space, Regex.lit '(', Regex.star .space, Regex.cls clsQ,
       Regex.lit '/', Regex.lit '/', Regex.star clsNotQ] ++
      litsOf "contains" ++
      [Regex.star .space, Regex.lit '(', Regex.plus clsNotComma, Regex.lit ',',
       Regex.star .space, Regex.cls clsSQ, Regex.star clsNotSQ] ++
      litsOf identifier ++
      [Regex.star clsNotSQ, Regex.cls clsSQ, Regex.lit ')', Regex.star clsNotQ,
       Regex.cls clsQ, Regex.star .space, Regex.lit ')'])
    "fill"

/-- Rule 7: data-testid selectors. -/
def dataTestidRuleSrc (identifier : String) : String :=
  "(\\.locator\\s*\\(\\s*[\"'']\\[data-testid[^\\]]*" ++ identifier ++
    "[^\\]]*\\][\"'']\\s*\\)" ++ locatorRuleSrcTail "fill"

def dataTestidRuleAst (identifier : String) : Regex :=
  locatorRuleAst
    (litsOf ".locator" ++
      [Regex.star .space, Regex.lit '(', Regex.star .space, Regex.cls clsQ,
       Regex.lit '['] ++
      litsOf "data-testid" ++
      [Regex.star clsNotBracket] ++
      litsOf identifier ++
      [Regex.star clsNotBracket, Regex.lit ']', Regex.cls clsQ,
       Regex.star .space, Regex.lit ')'])
    "fill"

/-- The selector of the three `getBy<Method>("…identifier…")` rules. -/
def getByNameSelector (methodName identifier : String) : List Regex :=
  litsOf ("." ++ methodName) ++
    [Regex.star .space, Regex.lit '(', Regex.star .space, Regex.cls clsQ,
     Regex.star clsNotQ] ++
    litsOf identifier ++
    [Regex.star clsNotQ, Regex.cls clsQ, Regex.star .space, Regex.lit ')']

def getByNameRuleSrc (methodName identifier : String) : String :=
  "(\\." ++ methodName ++ "\\s*\\(\\s*[\"''][^\"'']*" ++ identifier ++
    "[^\"'']*[\"'']\\s*\\)" ++ locatorRuleSrcTail "fill"

/-- Rule 8: `getByTestId` method. -/
def getByTestIdRuleSrc (identifier : String) : String :=
  getByNameRuleSrc "getByTestId" identifier

def getByTestIdRuleAst (identifier : String) : Regex :=
  locatorRuleAst (getByNameSelector "getByTestId" identifier) "fill"

/-- Rule 9: `getByRole` with a name option containing the identifier. -/
def getByRoleRuleSrc (identifier : String) : String :=
  "(\\.getByRole\\s*\\([^\\)]*name\\s*:\\s*[\"''][^\"'']*" ++ identifier ++
    "[^\"'']*[\"''][^\\)]*\\)" ++ locatorRuleSrcTail "fill"

def getByRoleRuleAst (identifier : String) : Regex :=
  locatorRuleAst
    (litsOf ".getByRole" ++
      [Regex.star .space, Regex.lit '(', Regex.star clsNotParen] ++
      litsOf "name" ++
      [Regex.star .space, Regex.lit ':', Regex.star .space, Regex.cls clsQ,
       Regex.star clsNotQ] ++
      litsOf identifier ++
      [Regex.star clsNotQ, Regex.cls clsQ, Regex.star clsNotParen, Regex.lit ')'])
    "fill"

/-- Rule 10: `getByLabel` method. -/
def getByLabelRuleSrc (identifier : String) : String :=
  getByNameRuleSrc "getByLabel" identifier

def getByLabelRuleAst (identifier : String) : Regex :=
  locatorRuleAst (getByNameSelector "getByLabel" identifier) "fill"

/-- Rule 11: `getByPlaceholder` method. -/
def getByPlaceholderRuleSrc (identifier : String) : String :=
  getByNameRuleSrc "getByPlaceholder" identifier

def getByPlaceholderRuleAst (identifier : String) : Regex :=
  locatorRuleAst (getByNameSelector "getByPlaceholder" identifier) "fill"

/-- The replacement template `` `$1${mask}$3` ``. -/
def maskReplacement (mask : String) : String :=
  "$1" ++ mask ++ "$3"

/-- Helper building one compiled factory rule. -/
def mkFactoryRule (src : String) (ast : Regex) (config : LocatorRuleConfig) :
    ScrubbingRule where
  pattern := .compiled src (ruleCi config) ast
  replacement := maskReplacement (getMaskValue config)

/-- `LocatorRulesFactory.createRulesForIdentifier`: the eleven rules, in
source order. -/
def createRulesForIdentifier (identifier : String) (config : LocatorRuleConfig) :
    List ScrubbingRule :=
  [mkFactoryRule (cssIdRuleSrc identifier) (cssIdRuleAst identifier) config,
   mkFactoryRule (cssAttrRuleSrc identifier) (cssAttrRuleAst identifier) config,
   mkFactoryRule (xpathIdRuleSrc identifier) (xpathIdRuleAst identifier) config,
   mkFactoryRule (xpathNameRuleSrc identifier) (xpathNameRuleAst identifier) config,
   mkFactoryRule (xpathClassRuleSrc identifier) (xpathClassRuleAst identifier) config,
   mkFactoryRule (xpathContainsRuleSrc identifier) (xpathContainsRuleAst identifier) config,
   mkFactoryRule (dataTestidRuleSrc identifier) (dataTestidRuleAst identifier) config,
   mkFactoryRule (getByTestIdRuleSrc identifier) (getByTestIdRuleAst identifier) config,
   mkFactoryRule (getByRoleRuleSrc identifier) (getByRoleRuleAst identifier) config,
   mkFactoryRule (getByLabelRuleSrc identifier) (getByLabelRuleAst identifier) config,
   mkFactoryRule (getByPlaceholderRuleSrc identifier) (getByPlaceholderRuleAst identifier) config]

/-- `LocatorRulesFactory.createLocatorRules`. -/
def createLocatorRules (p : PartialLocatorRuleConfig) : List ScrubbingRule :=
  let finalConfig := mergeConfig DEFAULT_CONFIG p
  finalConfig.sensitiveIdentifiers.foldl
    (fun rules identifier => rules ++ createRulesForIdentifier identifier finalConfig) []

/-- The generic locator rule of `createMethodRulesForIdentifier`:
`(\.locator\s*\([^\)]*<id>[^\)]*\)\.<method>\s*\(\s*["''])([^"'']*)((["'']\s*\)))`. -/
def genericLocatorRuleSrc (identifier method : String) : String :=
  "(\\.locator\\s*\\([^\\)]*" ++ identifier ++ "[^\\)]*\\)" ++ locatorRuleSrcTail method

def genericLocatorRuleAst (identifier method : String) : Regex :=
  locatorRuleAst
    (litsOf ".locator" ++
      [Regex.star .space, Regex.lit '(', Regex.star clsNotParen] ++
      litsOf identifier ++
      [Regex.star clsNotParen, Regex.lit ')'])
    method

/-- The generic `getBy*` rule of `createMethodRulesForIdentifier`:
`(\.getBy\w+\s*\([^\)]*<id>[^\)]*\)\.<method>\s*\(\s*["''])([^"'']*)((["'']\s*\)))`. -/
def genericGetByRuleSrc (identifier method : String) : String :=
  "(\\.getBy\\w+\\s*\\([^\\)]*" ++ identifier ++ "[^\\)]*\\)" ++ locatorRuleSrcTail method

def genericGetByRuleAst (identifier method : String) : Regex :=
  locatorRuleAst
    (litsOf ".getBy" ++
      [Regex.plus .word, Regex.star .space, Regex.lit '(', Regex.star clsNotParen] ++
      litsOf identifier ++
      [Regex.star clsNotParen, Regex.lit ')'])
    method

/-- `LocatorRulesFactory.createMethodRulesForIdentifier`: the two generic
rules for one identifier and one method. -/
def createMethodRulesForIdentifier (identifier method : String)
    (config : LocatorRuleConfig) : List ScrubbingRule :=
  [mkFactoryRule (genericLocatorRuleSrc identifier method)
     (genericLocatorRuleAst identifier method) config,
   mkFactoryRule (genericGetByRuleSrc identifier method)
     (genericGetByRuleAst identifier method) config]

/-- The method list of `createExtendedLocatorRules`. -/
def extendedMethods : List String := ["fill", "type", "selectOption", "setInputFiles"]

/-- `LocatorRulesFactory.createExtendedLocatorRules`. -/
def createExtendedLocatorRules (p : PartialLocatorRuleConfig) : List ScrubbingRule :=
  let finalConfig := mergeConfig DEFAULT_CONFIG p
  finalConfig.sensitiveIdentifiers.foldl
    (fun rules identifier =>
      extendedMethods.foldl
        (fun rules' method =>
          rules' ++ createMethodRulesForIdentifier identifier method finalConfig)
        rules)
    []

/-- `LocatorRulesFactory.getAllRules`. -/
def getAllRules (p : PartialLocatorRuleConfig) : List ScrubbingRule :=
  createLocatorRules p ++ createExtendedLocatorRules p

/-! ## Configuration model and the artifact locator

Three implementations exist in the repository and are all modelled: the
class `PlaywrightConfigParser` (the enhanced `config-parser.ts`), the
functional `getDirectoryPaths` of `src/config-parser.ts`, and the inline
extraction of `PlaywrightDataScrubber.parsePlaywrightConfig` (`index.ts`). -/

/-- Options of a `[name, options]` reporter entry. -/
structure ReporterOpts where
  outputFolder : Option String := none
  deriving DecidableEq, Repr

/-- One entry of the `reporter` array: a plain name or a `[name, options]`
pair (whose options slot may be absent). -/
inductive ReporterEntry where
  | name (n : String)
  | pair (n : String) (opts : Option ReporterOpts)
  deriving DecidableEq, Repr

/-- The `use.trace` setting: boolean, string mode, or an options object
(`snapshots` is the field the `index.ts` variant inspects). -/
inductive TraceSetting where
  | bool (b : Bool)
  | str (s : String)
  | obj (snapshots : Bool)
  deriving DecidableEq, Repr

/-- The `use` block. -/
structure UseSettings where
  trace : Option TraceSetting := none
  deriving DecidableEq, Repr

/-- `PlaywrightConfig` of `types.ts` (the fields the locator reads). -/
structure PlaywrightConfig where
  reporter : Option (List ReporterEntry) := none
  outputDir : Option String := none
  use : Option UseSettings := none
  deriving DecidableEq, Repr

/-- `DirectoryPaths` of `types.ts`. -/
structure DirectoryPaths where
  htmlReportDir : Option String := none
  traceDir : Option String := none
  deriving DecidableEq, Repr

/-- JS truthiness of a `use.trace` value (`false` and the empty string are
falsy; every object is truthy). -/
def traceTruthy : TraceSetting → Bool
  | .bool b => b
  | .str s => s != ""
  | .obj _ => true

/-- JS `v || d` for an optional string (the empty string falls back). -/
def jsStrOr (v : Option String) (d : String) : String :=
  match v with
  | some s => if s = "" then d else s
  | none => d

/-- Modelled external library (Node `path.resolve` with two arguments): an
absolute second argument wins, a relative one is joined to the root. -/
def pathResolve (root p : String) : String :=
  if p.data.take 1 = ['/'] then p else root ++ "/" ++ p

namespace PlaywrightConfigParser

/-- `PlaywrightConfigParser.hasHtmlReporter`. -/
def hasHtmlReporter (reporters : List ReporterEntry) : Bool :=
  reporters.any fun r =>
    match r with
    | .name n => n == "html"
    | .pair n _ => n == "html"

/-- `PlaywrightConfigParser.addDefaults`: default `outputDir`, ensured
reporter array, default html reporter appended when none is present. -/
def addDefaults (config : PlaywrightConfig) : PlaywrightConfig :=
  let outputDir : Option String :=
    match config.outputDir with
    | some s => if s = "" then some "test-results" else some s
    | none => some "test-results"
  let reporter0 := config.reporter.getD []
  let reporter :=
    if hasHtmlReporter reporter0 then reporter0
    else reporter0 ++ [.pair "html" (some { outputFolder := some "playwright-report" })]
  { config with outputDir := outputDir, reporter := some reporter }

/-- The first-match scan of `getHtmlReportDir`'s loop. -/
def findHtmlDir (projectRoot : String) : List ReporterEntry → Option String
  | [] => none
  | .name n :: rest =>
    if n = "html" then some (pathResolve projectRoot "playwright-report")
    else findHtmlDir projectRoot rest
  | .pair n opts :: rest =>
    if n = "html" then
      some (pathResolve projectRoot (jsStrOr (opts.getD {}).outputFolder "playwright-report"))
    else findHtmlDir projectRoot rest

/-- `PlaywrightConfigParser.getHtmlReportDir`. -/
def getHtmlReportDir (projectRoot : String) (config : PlaywrightConfig) :
    Option String :=
  match config.reporter with
  | none => none
  | some reporters => findHtmlDir projectRoot reporters

/-- `PlaywrightConfigParser.getTraceDir`: `null` unless `use.trace` is
truthy; then enabled for `true`, a non-`"off"` string, or an object. -/
def getTraceDir (projectRoot : String) (config : PlaywrightConfig) :
    Option String :=
  match config.use with
  | none => none
  | some u =>
    match u.trace with
    | none => none
    | some t =>
      if !traceTruthy t then none
      else
        let traceEnabled :=
          t == .bool true ||
          (match t with | .str s => s != "off" | _ => false) ||
          (match t with | .obj _ => true | _ => false)
        if traceEnabled then
          some (pathResolve projectRoot (jsStrOr config.outputDir "test-results"))
        else none

/-- `PlaywrightConfigParser.getDirectoryPaths`. -/
def getDirectoryPaths (projectRoot : String) (config : PlaywrightConfig) :
    DirectoryPaths where
  htmlReportDir := getHtmlReportDir projectRoot config
  traceDir := getTraceDir projectRoot config

end PlaywrightConfigParser

/-- `addDefaultPaths` of the functional `src/config-parser.ts` (identical
logic to `PlaywrightConfigParser.addDefaults`). -/
def addDefaultPaths : PlaywrightConfig → PlaywrightConfig :=
  PlaywrightConfigParser.addDefaults

/-- The html scan of the functional `getDirectoryPaths` (`src/config-parser.ts`):
same first-match scan, but the folder is returned unresolved. -/
def findHtmlDirFn : List ReporterEntry → Option String
  | [] => none
  | .name n :: rest =>
    if n = "html" then some "playwright-report" else findHtmlDirFn rest
  | .pair n opts :: rest =>
    if n = "html" then some (jsStrOr (opts.getD {}).outputFolder "playwright-report")
    else findHtmlDirFn rest

/-- The functional `getDirectoryPaths` of `src/config-parser.ts`: like the
class variant but without resolving against the config directory. -/
def getDirectoryPathsFn (config : PlaywrightConfig) : DirectoryPaths where
  htmlReportDir :=
    match config.reporter with
    | none => none
    | some reporters => findHtmlDirFn reporters
  traceDir :=
    match config.use with
    | none => none
    | some u =>
      match u.trace with
      | none => none
      | some t =>
        if !traceTruthy t then none
        else
          let traceEnabled :=
            t == .bool true ||
            (match t with | .str s => s != "off" | _ => false) ||
            (match t with | .obj _ => true | _ => false)
          if traceEnabled then some (jsStrOr config.outputDir "test-results")
          else none

/-- The html-report extraction inlined in
`PlaywrightDataScrubber.parsePlaywrightConfig` (`index.ts`): scans only
`[name, options]` pair entries, ignoring plain string entries. -/
def pwdScrubberHtmlDir (projectRoot : String) (config : PlaywrightConfig) :
    Option String :=
  match config.reporter with
  | none => none
  | some reporters => go reporters
where
  go : List ReporterEntry → Option String
    | [] => none
    | .name _ :: rest => go rest
    | .pair n opts :: rest =>
      if n = "html" then
        some (pathResolve projectRoot (jsStrOr (opts.getD {}).outputFolder "playwright-report"))
      else go rest

/-- The trace extraction inlined in
`PlaywrightDataScrubber.parsePlaywrightConfig` (`index.ts`): the trace
directory is set only when `use.trace` is an object with truthy
`snapshots`. -/
def pwdScrubberTraceDir (projectRoot : String) (config : PlaywrightConfig) :
    Option String :=
  match config.use with
  | none => none
  | some u =>
    match u.trace with
    | none => none
    | some t =>
      if traceTruthy t then
        match t with
        | .obj snapshots =>
          if snapshots then
            some (pathResolve projectRoot (jsStrOr config.outputDir "test-results"))
          else none
        | _ => none
      else none

/-! ## File system, path and container-codec models -/

/-- Modelled external library (Node `path.join` with two segments). -/
def pathJoin (a b : String) : String := a ++ "/" ++ b

/-- Modelled external library (Node `path.dirname`). -/
def pathDirname (p : String) : String :=
  let r := p.data.reverse.dropWhile (fun c => c ≠ '/')
  match r with
  | [] => "."
  | _ :: t => if t = [] then "/" else String.mk t.reverse

/-- Modelled external library (Node `path.basename` with a suffix argument):
the last path segment, with the suffix stripped when it ends with it. -/
def pathBasenameExt (p suffix : String) : String :=
  let base := String.mk ((p.data.reverse.takeWhile (fun c => c ≠ '/')).reverse)
  if suffix ≠ "" ∧ suffix ≠ base ∧ suffix.data.isSuffixOf base.data then
    String.mk (base.data.take (base.data.length - suffix.data.length))
  else base

/-- Modelled external library (Node `path.extname`): the suffix from the
last dot of the last segment (nothing for a dotless or dot-leading name). -/
def pathExtname (p : String) : String :=
  let revBase := p.data.reverse.takeWhile (fun c => c ≠ '/')
  let ext := revBase.takeWhile (fun c => c ≠ '.')
  if revBase.length > ext.length ∧ ext.length + 1 < revBase.length then
    String.mk ('.' :: ext.reverse)
  else ""

/-- ASCII lowercasing of a string (JS `toLowerCase` on the names used). -/
def lowerStr (s : String) : String := String.mk (s.data.map lowerc)

/-- Modelled external library (Node `path.relative` against the working
directory): file paths in the model are taken relative to it already. -/
def pathRelativeCwd (p : String) : String := p

/-- `ScrubberOptions` of `types.ts`. -/
structure ScrubberOptions where
  rules : List ScrubbingRule
  outputDir : Option String := none
  preserveOriginals : Bool := false
  verbose : Bool := false

/-- `AbstractScrubber.getOutputPath` (and the identical `TraceScrubber`
variant): no (or empty) `outputDir` overwrites the original; otherwise the
original's relative path is mirrored under `outputDir`. -/
def getOutputPath (opts : ScrubberOptions) (filePath : String) : String :=
  match opts.outputDir with
  | none => filePath
  | some d => if d = "" then filePath else pathJoin d (pathRelativeCwd filePath)

/-- The modelled file system: contents by path, plus the set of paths for
which `fs.promises.access(…, R_OK)` succeeds. -/
structure FileSys where
  files : List (String × String)
  readable : List String := []

/-- `fs.promises.readFile` (successful read or a thrown error as `none`). -/
def readFile (fs : FileSys) (p : String) : Option String :=
  (fs.files.find? (fun e => e.1 == p)).map (fun e => e.2)

/-- `FileProcessor.isFileAccessible`. -/
def isFileAccessible (fs : FileSys) (p : String) : Bool :=
  fs.readable.contains p

/-- Writing a file into the modelled file system. -/
def writeFileFs (fs : FileSys) (p c : String) : FileSys :=
  { fs with files := (p, c) :: fs.files.filter (fun e => e.1 ≠ p) }

/-- Removing a file from the modelled file system. -/
def removeFileFs (fs : FileSys) (p : String) : FileSys :=
  { fs with files := fs.files.filter (fun e => e.1 ≠ p) }

/-- An externally visible file-system operation performed by a scrubber. -/
inductive FsEffect where
  | mkdirp (dir : String)
  | write (path content : String)
  | delete (path : String)
  deriving DecidableEq, Repr

/-- `AbstractScrubber.handleOriginalFile` as the effects it performs:
delete the original when the output went elsewhere and originals are not
preserved. -/
def handleOriginalFile (opts : ScrubberOptions) (originalPath outputPath : String) :
    List FsEffect :=
  if outputPath != originalPath && !opts.preserveOriginals then [.delete originalPath]
  else []

/-- Modelled external library (Node `Buffer` base64 codec): an injective
textual coding (decimal character codes, each followed by a dot) standing
in for base64.  Like real base64 output its alphabet avoids quotes, and
like `Buffer.from` the decoder is lenient on malformed input. -/
def encodeBase64 (s : String) : String :=
  String.join (s.data.map fun c => toString c.toNat ++ ".")

def decodeB64Go : List Char → Nat → List Char
  | [], _ => []
  | c :: cs, acc =>
    if c = '.' then Char.ofNat acc :: decodeB64Go cs 0
    else if isDigitChar c then decodeB64Go cs (acc * 10 + (c.toNat - 48))
    else decodeB64Go cs acc

/-- Decoder of the modelled base64 coding. -/
def decodeBase64 (s : String) : String := String.mk (decodeB64Go s.data 0)

/-- One entry of a zip archive as the codec model exposes it. -/
structure ZipEntry where
  name : String
  isDir : Bool := false
  content : String := ""
  deriving DecidableEq, Repr

/-- Reads a decimal length up to a semicolon. -/
def readNatGo : List Char → Nat → Bool → Option (Nat × List Char)
  | [], _, _ => none
  | c :: cs, acc, started =>
    if isDigitChar c then readNatGo cs (acc * 10 + (c.toNat - 48)) true
    else if c = ';' ∧ started then some (acc, cs) else none

/-- Reads `n` characters exactly. -/
def readChunk (n : Nat) (cs : List Char) : Option (List Char × List Char) :=
  if n ≤ cs.length then some (cs.take n, cs.drop n) else none

/-- Parses one length-prefixed zip entry of the modelled archive format. -/
def parseZipEntry (cs : List Char) : Option (ZipEntry × List Char) :=
  match readNatGo cs 0 false with
  | none => none
  | some (nameLen, cs₁) =>
    match readChunk nameLen cs₁ with
    | none => none
    | some (nameCs, cs₂) =>
      match cs₂ with
      | [] => none
      | flag :: cs₃ =>
        if flag ≠ 'D' ∧ flag ≠ 'F' then none
        else
          match readNatGo cs₃ 0 false with
          | none => none
          | some (contentLen, cs₄) =>
            match readChunk contentLen cs₄ with
            | none => none
            | some (contentCs, cs₅) =>
              some (⟨String.mk nameCs, flag = 'D', String.mk contentCs⟩, cs₅)

def parseZipEntries : Nat → List Char → Option (List ZipEntry × List Char)
  | 0, cs => some ([], cs)
  | n + 1, cs =>
    match parseZipEntry cs with
    | none => none
    | some (e, cs') =>
      match parseZipEntries n cs' with
      | none => none
      | some (es, cs'') => some (e :: es, cs'')

/-- Modelled external library (the zip container codec behind `JSZip` and
`AdmZip`): decodes an archive to its entry list; a malformed archive yields
`none` (the real libraries throw or reject). -/
def zipDecode (s : String) : Option (List ZipEntry) :=
  match s.data with
  | 'P' :: 'K' :: ';' :: rest =>
    match readNatGo rest 0 false with
    | none => none
    | some (n, cs) =>
      match parseZipEntries n cs with
      | some (es, []) => some es
      | _ => none
  | _ => none

/-- Modelled external library: the inverse archive encoder. -/
def zipEncode (es : List ZipEntry) : String :=
  "PK;" ++ toString es.length ++ ";" ++
    String.join (es.map fun e =>
      toString e.name.data.length ++ ";" ++ e.name ++ (if e.isDir then "D" else "F") ++
        toString e.content.data.length ++ ";" ++ e.content)

/-- First index at which `target` occurs in the input. -/
def findSubIdx (target : List Char) : List Char → Option Nat
  | [] => if target = [] then some 0 else none
  | c :: cs =>
    if target.isPrefixOf (c :: cs) then some 0
    else (findSubIdx target cs).map (fun i => i + 1)

/-- Modelled external (JS `String.replace` with a plain-string search):
replace the first occurrence; the replacement is inserted verbatim (the
repository's call sites pass replacements without `$` patterns). -/
def replaceFirstOcc (s target repl : String) : String :=
  match findSubIdx target.data s.data with
  | none => s
  | some i =>
    String.mk (s.data.take i ++ repl.data ++ s.data.drop (i + target.data.length))

/-! ## The HTML report scrubbers (`html-scrubber.ts`, both variants) -/

/-- The class `["']`. -/
def clsDq : CharClass := .oneOf ['"', '\'']

/-- The class `[^"']`. -/
def clsNotDq : CharClass := .noneOf ['"', '\'']

/-- The marker regex of the JSZip variant:
`(window\.playwrightReportBase64\s*=\s*["']data:application\/zip;base64,)([^"']+)(["'];?)`. -/
def scriptPatternAst : Regex :=
  rseq
    [.group 1 (rseq (litsOf "window" ++ [Regex.lit '.'] ++
        litsOf "playwrightReportBase64" ++
        [Regex.star .space, Regex.lit '=', Regex.star .space, Regex.cls clsDq] ++
        litsOf "data:application" ++ [Regex.lit '/'] ++ litsOf "zip;base64,")),
     .group 2 (rseq [Regex.plus clsNotDq]),
     .group 3 (rseq [Regex.cls clsDq, Regex.quest (.oneOf [';'])])]

/-- The source text of the marker regex. -/
def scriptPatternSrc : String :=
  "(window\\.playwrightReportBase64\\s*=\\s*[\"']data:application\\/zip;base64,)([^\"']+)([\"'];?)"

/-- The global data-URI regex of the base64 variant:
`data:application\/zip;base64,([^"']+)`. -/
def base64PatternAst : Regex :=
  rseq (litsOf "data:application" ++ [Regex.lit '/'] ++ litsOf "zip;base64," ++
    [Regex.group 1 (rseq [Regex.plus clsNotDq])])

/-- The source text of the data-URI regex. -/
def base64PatternSrc : String :=
  "data:application\\/zip;base64,([^\"']+)"

/-- The result of a JS `RegExp.exec`: match position, matched text,
captured groups. -/
structure ExecResult where
  pos : Nat
  fullMatch : String
  caps : Caps

/-- JS `re.exec(s)` (first match). -/
def regexExec (ci : Bool) (re : Regex) (s : String) : Option ExecResult :=
  match searchIn ci re s.data 0 with
  | none => none
  | some (pos, rest, caps) =>
    some ⟨pos, String.mk ((s.data.drop pos).take (s.data.length - pos - rest.length)), caps⟩

/-- All matches of a global regex, as the `while (exec…)` loop visits them
(advancing one character past an empty match). -/
def execAllGo (ci : Bool) (re : Regex) : Nat → List Char → List Caps
  | 0, _ => []
  | fuel + 1, s =>
    match searchIn ci re s 0 with
    | none => []
    | some (pos, rest, caps) =>
      let matchedLen := s.length - pos - rest.length
      if matchedLen = 0 then
        match rest with
        | [] => [caps]
        | _ => caps :: execAllGo ci re fuel (s.drop (pos + 1))
      else caps :: execAllGo ci re fuel rest

def execAll (ci : Bool) (re : Regex) (s : String) : List Caps :=
  execAllGo ci re (s.data.length + 1) s.data

namespace HtmlReportScrubber

/-- `HtmlReportScrubber.scrubFile` (the JSZip-based variant): an
inaccessible file is skipped; a missing marker leaves the file untouched;
a corrupt embedded archive is a rethrown error; otherwise the embedded
entries are scrubbed and, only if one changed, the file is rewritten (and
the original-file policy applied).  The result is the effect list
performed, or the rethrown error. -/
def scrubFile (opts : ScrubberOptions) (fs : FileSys) (filePath : String) :
    Except String (List FsEffect) :=
  if !isFileAccessible fs filePath then .ok []
  else
    match readFile fs filePath with
    | none => .error "read failed"
    | some content =>
      match regexExec false scriptPatternAst content with
      | none => .ok []
      | some m =>
        let base64Str := capLookup m.caps 2
        match zipDecode (decodeBase64 base64Str) with
        | none => .error "invalid zip"
        | some entries =>
          let processed := entries.map fun e =>
            if e.isDir then e
            else { e with content := applyScrubRules opts.rules e.content }
          let hasChanges := entries.any fun e =>
            !e.isDir && applyScrubRules opts.rules e.content != e.content
          if hasChanges then
            let newBase64 := encodeBase64 (zipEncode processed)
            let newScript := capLookup m.caps 1 ++ newBase64 ++ capLookup m.caps 3
            let newContent := replaceFirstOcc content m.fullMatch newScript
            let outputPath := getOutputPath opts filePath
            .ok ([.mkdirp (pathDirname outputPath), .write outputPath newContent] ++
                 handleOriginalFile opts filePath outputPath)
          else .ok []

/-- `HtmlReportScrubber.scrubFile` (the base64 variant of the first
`html-scrubber.ts`): every `data:application/zip;base64,` URI is decoded
and scrubbed; when at least one URI was found the file is written (and the
original-file policy applied) even if nothing changed. -/
def scrubFileB64 (opts : ScrubberOptions) (fs : FileSys) (filePath : String) :
    Except String (List FsEffect) :=
  if !isFileAccessible fs filePath then .ok []
  else
    match readFile fs filePath with
    | none => .error "read failed"
    | some content =>
      let found := execAll false base64PatternAst content
      let newContent := found.foldl
        (fun acc caps =>
          let base64Str := capLookup caps 1
          let decoded := decodeBase64 base64Str
          let scrubbed := applyScrubRules opts.rules decoded
          if decoded != scrubbed then
            replaceFirstOcc acc base64Str (encodeBase64 scrubbed)
          else acc)
        content
      if found.isEmpty then .ok []
      else
        let outputPath := getOutputPath opts filePath
        .ok ([.mkdirp (pathDirname outputPath), .write outputPath newContent] ++
             handleOriginalFile opts filePath outputPath)

/-- `HtmlReportScrubber.scrubAllFiles`: each found file in turn; an error
thrown by `scrubFile` propagates (there is no catch in the loop). -/
def scrubAllFiles (opts : ScrubberOptions) (fs : FileSys) :
    List String → Except String (List FsEffect)
  | [] => .ok []
  | f :: rest => do
    let e ← scrubFile opts fs f
    let es ← scrubAllFiles opts fs rest
    pure (e ++ es)

end HtmlReportScrubber

/-- `PlaywrightResultScrubber.scrub`, html phase: the surrounding
`try`/`catch` logs the failure and rethrows it, so an error from one file
aborts the whole run (the trace phase never runs). -/
def PlaywrightResultScrubber.scrub (opts : ScrubberOptions) (fs : FileSys)
    (htmlFiles : List String) : Except String (List FsEffect) :=
  match HtmlReportScrubber.scrubAllFiles opts fs htmlFiles with
  | .ok es => .ok es
  | .error e => .error e

/-! ## The trace scrubber (`trace-scrubber.ts`, enhanced variant) -/

namespace TraceScrubber

def textExtensions : List String := [".json", ".txt", ".html", ".js"]

/-- Whether `p` lies at or under directory `dir`. -/
def underDir (dir p : String) : Bool :=
  p == dir || (dir ++ "/").data.isPrefixOf p.data

/-- `FileProcessor.getAllFilesRecursively` on the modelled file system. -/
def filesUnder (fs : FileSys) (dir : String) : List String :=
  (fs.files.filter (fun e => underDir dir e.1)).map (fun e => e.1)

/-- `path.relative(tempDir, file)` for a file under `tempDir`. -/
def stripDir (dir p : String) : String :=
  String.mk (p.data.drop (dir.data.length + 1))

/-- The scratch directory `path.join(cwd, '.trace-scrubber-temp',
basename(filePath, '.zip'))`. -/
def tempDirFor (cwd filePath : String) : String :=
  pathJoin (pathJoin cwd ".trace-scrubber-temp") (pathBasenameExt filePath ".zip")

/-- `TraceScrubber.processTraceFile`: extract the archive into the scratch
directory, scrub the text-like entries in place, rebuild the archive at the
output path, apply the original-file policy.  A missing or corrupt archive
is a thrown error. -/
def processTraceFile (opts : ScrubberOptions) (fs : FileSys)
    (filePath tempDir : String) : Except String FileSys :=
  match readFile fs filePath with
  | none => .error "open failed"
  | some raw =>
    match zipDecode raw with
    | none => .error "invalid zip"
    | some entries =>
      let fs₁ := entries.foldl
        (fun acc e =>
          if e.isDir then acc else writeFileFs acc (pathJoin tempDir e.name) e.content)
        fs
      let fs₂ := (filesUnder fs₁ tempDir).foldl
        (fun acc p =>
          if textExtensions.contains (lowerStr (pathExtname p)) then
            match readFile acc p with
            | some c =>
              let scrubbed := applyScrubRules opts.rules c
              if hasContentChanged c scrubbed then writeFileFs acc p scrubbed else acc
            | none => acc
          else acc)
        fs₁
      let outputPath := getOutputPath opts filePath
      let newEntries := (filesUnder fs₂ tempDir).map fun p =>
        ZipEntry.mk (stripDir tempDir p) false ((readFile fs₂ p).getD "")
      let fs₃ := writeFileFs fs₂ outputPath (zipEncode newEntries)
      let fs₄ :=
        if outputPath != filePath && !opts.preserveOriginals then removeFileFs fs₃ filePath
        else fs₃
      .ok fs₄

/-- `TraceScrubber.cleanup`: `fs.rm(tempDir, { recursive, force })`, errors
ignored. -/
def cleanup (fs : FileSys) (tempDir : String) : FileSys :=
  { fs with files := fs.files.filter (fun e => !underDir tempDir e.1) }

/-- `TraceScrubber.scrubFile`: `try { processTraceFile } finally { cleanup }` —
the scratch directory is removed on the success and on the failure path;
a failure is rethrown after cleanup. -/
def scrubFile (opts : ScrubberOptions) (cwd : String) (fs : FileSys)
    (filePath : String) : Except String Unit × FileSys :=
  let tempDir := tempDirFor cwd filePath
  match processTraceFile opts fs filePath tempDir with
  | .ok fs' => (.ok (), cleanup fs' tempDir)
  | .error e => (.error e, cleanup fs tempDir)

end TraceScrubber

/-! ## Further definitions for the claim statements -/

/-- Whether a rule's (compiled) pattern matches somewhere in the content;
a rule whose pattern does not compile matches nothing. -/
def ruleHasMatch (r : ScrubbingRule) (content : String) : Bool :=
  match createRegexPattern r with
  | some cre => (searchIn cre.ci cre.re content.data 0).isSome
  | none => false

/-- The selector syntaxes of the locator-rule factory, in source order. -/
inductive SelectorSyntax where
  | cssId
  | cssAttr
  | xpathId
  | xpathName
  | xpathClass
  | xpathContains
  | dataTestid
  | getByTestId
  | getByRole
  | getByLabel
  | getByPlaceholder
  deriving DecidableEq, Repr

/-- All eleven selector syntaxes. -/
def syntaxList : List SelectorSyntax :=
  [.cssId, .cssAttr, .xpathId, .xpathName, .xpathClass, .xpathContains,
   .dataTestid, .getByTestId, .getByRole, .getByLabel, .getByPlaceholder]

/-- Modelled from the spec: the pattern a rule for one
(identifier × selector-syntax × operation) combination of the claimed rule
matrix would carry — each factory template with the operation in place of
the hard-coded `fill`.  For `op = "fill"` each case coincides definitionally
with the corresponding factory pattern source. -/
def specSyntaxOpPattern (syn : SelectorSyntax) (identifier op : String) : String :=
  match syn with
  | .cssId =>
    "(\\.locator\\s*\\(\\s*[\"''][^\"'']*#[^\"'']*" ++ identifier ++
      "[^\"'']*[\"'']\\s*\\)" ++ locatorRuleSrcTail op
  | .cssAttr =>
    "(\\.locator\\s*\\(\\s*[\"''][^\"'']*\\[[^\\]]*" ++ identifier ++
      "[^\\]]*\\][^\"'']*[\"'']\\s*\\)" ++ locatorRuleSrcTail op
  | .xpathId =>
    "(\\.locator\\s*\\(\\s*[\"'']//[^\"'']*\\[@id\\s*=\\s*['\"][^''\"]*" ++ identifier ++
      "[^''\"]*['\"][^\"'']*[\"'']\\s*\\)" ++ locatorRuleSrcTail op
  | .xpathName =>
    "(\\.locator\\s*\\(\\s*[\"'']//[^\"'']*\\[@name\\s*=\\s*['\"][^''\"]*" ++ identifier ++
      "[^''\"]*['\"][^\"'']*[\"'']\\s*\\)" ++ locatorRuleSrcTail op
  | .xpathClass =>
    "(\\.locator\\s*\\(\\s*[\"'']//[^\"'']*\\[@class\\s*=\\s*['\"][^''\"]*" ++ identifier ++
      "[^''\"]*['\"][^\"'']*[\"'']\\s*\\)" ++ locatorRuleSrcTail op
  | .xpathContains =>
    "(\\.locator\\s*\\(\\s*[\"'']//[^\"'']*contains\\s*\\([^,]+,\\s*['\"][^''\"]*" ++
      identifier ++ "[^''\"]*['\"]\\)[^\"'']*[\"'']\\s*\\)" ++ locatorRuleSrcTail op
  | .dataTestid =>
    "(\\.locator\\s*\\(\\s*[\"'']\\[data-testid[^\\]]*" ++ identifier ++
      "[^\\]]*\\][\"'']\\s*\\)" ++ locatorRuleSrcTail op
  | .getByTestId =>
    "(\\.getByTestId\\s*\\(\\s*[\"''][^\"'']*" ++ identifier ++
      "[^\"'']*[\"'']\\s*\\)" ++ locatorRuleSrcTail op
  | .getByRole =>
    "(\\.getByRole\\s*\\([^\\)]*name\\s*:\\s*[\"''][^\"'']*" ++ identifier ++
      "[^\"'']*[\"''][^\\)]*\\)" ++ locatorRuleSrcTail op
  | .getByLabel =>
    "(\\.getByLabel\\s*\\(\\s*[\"''][^\"'']*" ++ identifier ++
      "[^\"'']*[\"'']\\s*\\)" ++ locatorRuleSrcTail op
  | .getByPlaceholder =>
    "(\\.getByPlaceholder\\s*\\(\\s*[\"''][^\"'']*" ++ identifier ++
      "[^\"'']*[\"'']\\s*\\)" ++ locatorRuleSrcTail op

/-- A configuration with the single sensitive identifier `password`. -/
def cfgPwd : PartialLocatorRuleConfig := { sensitiveIdentifiers := some ["password"] }

/-- The entries of the archive embedded in an HTML file's marker assignment,
as `HtmlReportScrubber.scrubFile` decodes them. -/
def embeddedEntries (content : String) : Option (List ZipEntry) :=
  match regexExec false scriptPatternAst content with
  | none => none
  | some m => zipDecode (decodeBase64 (capLookup m.caps 2))

/-- The number of effects of a successful scrub result. -/
def okEffectCount : Except String (List FsEffect) → Option Nat
  | .ok es => some es.length
  | .error _ => none

/-- Whether a regex contains no capturing group. -/
def groupFree : Regex → Bool
  | .eps => true
  | .lit _ => true
  | .cls _ => true
  | .star _ => true
  | .plus _ => true
  | .quest _ => true
  | .seq a b => groupFree a && groupFree b
  | .group _ _ => false

/-- Whether a regex list contains no capturing group. -/
def groupFreeL (rs : List Regex) : Bool := rs.all groupFree

/-- Relational semantics of the matcher: `Matches ci re t caps caps'` says
regex `re` matches exactly the text `t`, transforming the capture list
`caps` into `caps'` (each group prepends its captured text as the matcher
does). -/
inductive Matches (ci : Bool) : Regex → List Char → Caps → Caps → Prop where
  | eps (caps : Caps) : Matches ci .eps [] caps caps
  | lit (c x : Char) (caps : Caps) (h : eqc ci x c = true) :
      Matches ci (.lit c) [x] caps caps
  | cls (cc : CharClass) (x : Char) (caps : Caps) (h : cmatch ci cc x = true) :
      Matches ci (.cls cc) [x] caps caps
  | star (cc : CharClass) (t : List Char) (caps : Caps)
      (h : ∀ c ∈ t, cmatch ci cc c = true) : Matches ci (.star cc) t caps caps
  | plus (cc : CharClass) (t : List Char) (caps : Caps) (hne : t ≠ [])
      (h : ∀ c ∈ t, cmatch ci cc c = true) : Matches ci (.plus cc) t caps caps
  | quest0 (cc : CharClass) (caps : Caps) : Matches ci (.quest cc) [] caps caps
  | quest1 (cc : CharClass) (x : Char) (caps : Caps) (h : cmatch ci cc x = true) :
      Matches ci (.quest cc) [x] caps caps
  | seq (a b : Regex) (t₁ t₂ : List Char) (caps caps₁ caps₂ : Caps)
      (ha : Matches ci a t₁ caps caps₁) (hb : Matches ci b t₂ caps₁ caps₂) :
      Matches ci (.seq a b) (t₁ ++ t₂) caps caps₂
  | group (n : Nat) (r : Regex) (t : List Char) (caps caps' : Caps)
      (h : Matches ci r t caps caps') :
      Matches ci (.group n r) t caps ((n, String.mk t) :: caps')

/-! ### Concrete fixtures for witnesses and counterexamples -/

/-- A rule that matches the word `hunter2`. -/
def rulePw : ScrubbingRule := { pattern := .raw "hunter2", replacement := "********" }

/-- A rule matching nothing in the fixture contents. -/
def ruleNo : ScrubbingRule := { pattern := .raw "zzz", replacement := "x" }

/-- A rule whose pattern does not compile (unclosed group). -/
def ruleBad : ScrubbingRule := { pattern := .raw "(", replacement := "x" }

/-- An embedded archive with one secret-bearing entry. -/
def zipC5 : List ZipEntry := [{ name := "a.json", content := "pw hunter2" }]

/-- An html file whose embedded-archive payload is corrupt. -/
def badContentC5 : String :=
  "window.playwrightReportBase64 = \"data:application/zip;base64,99\";"

/-- An html file with a well-formed embedded archive containing a secret. -/
def goodContentC5 : String :=
  "window.playwrightReportBase64 = \"data:application/zip;base64," ++
    encodeBase64 (zipEncode zipC5) ++ "\";"

def optsC5 : ScrubberOptions := { rules := [rulePw] }

def fsC5 : FileSys where
  files := [("r/bad.html", badContentC5), ("r/good.html", goodContentC5)]
  readable := ["r/bad.html", "r/good.html"]

/-- A js file carrying a bare `data:application/zip;base64,` URI that is not
part of a `window.playwrightReportBase64` marker assignment. -/
def contentC6 : String :=
  "var x = \"data:application/zip;base64," ++ encodeBase64 "nothing sensitive" ++ "\";"

def optsC6 : ScrubberOptions :=
  { rules := [ruleNo], outputDir := some "out", preserveOriginals := false }

def fsC6 : FileSys where
  files := [("r/a.js", contentC6)]
  readable := ["r/a.js"]

/-- An embedded archive none of whose entries the fixture rules change. -/
def zipC10 : List ZipEntry := [{ name := "a.json", content := "clean" }]

/-- An html file embedding `zipC10` in its marker assignment. -/
def contentC10 : String :=
  "window.playwrightReportBase64 = \"data:application/zip;base64," ++
    encodeBase64 (zipEncode zipC10) ++ "\";"

def optsC10 : ScrubberOptions :=
  { rules := [rulePw], outputDir := some "out", preserveOriginals := false }

def fsC10 : FileSys where
  files := [("r/i.html", contentC10)]
  readable := ["r/i.html"]

/-- A file system with one corrupt trace archive. -/
def fsC9 : FileSys where
  files := [("t/bad.zip", "garbage")]
  readable := []

/-! ## Character-level lemmas -/

theorem toNat_ofNat_valid (n : Nat) (h : Nat.isValidChar n) :
    (Char.ofNat n).toNat = n := by
  simp [Char.ofNat, Char.toNat, Char.ofNatAux, h]
  simp [UInt32.toNat, UInt32.ofNatCore]

theorem lowerc_eq_low {c d : Char} (hd : d.toNat < 65) (h : lowerc c = d) : c = d := by
  unfold lowerc at h
  split at h
  · next hc =>
    have h1 : (65 : Nat) ≤ c.toNat := hc.1
    have h2 : c.toNat ≤ 90 := hc.2
    have hv : Nat.isValidChar (c.toNat + 32) := Or.inl (by omega)
    have := congrArg Char.toNat h
    rw [toNat_ofNat_valid _ hv] at this
    omega
  · exact h

theorem lowerc_low_fix {d : Char} (hd : d.toNat < 65) : lowerc d = d := by
  unfold lowerc
  split
  · next hc =>
    have h1 : (65 : Nat) ≤ d.toNat := hc.1
    exact absurd h1 (by omega)
  · rfl

/-- A character `eqc`-equal to a non-letter (code below 65) is that
character: case folding only moves letters. -/
theorem eqc_low {ci : Bool} {c d : Char} (hd : d.toNat < 65) (h : eqc ci c d = true) :
    c = d := by
  unfold eqc at h
  cases ci with
  | false => simpa using h
  | true =>
    simp only [if_true, beq_iff_eq] at h
    rw [lowerc_low_fix hd] at h
    exact lowerc_eq_low hd h

@[simp] theorem eqc_refl (ci : Bool) (c : Char) : eqc ci c c = true := by
  cases ci <;> simp [eqc]

/-! ## Matcher lemmas -/

theorem ciIsPre_self_append (ci : Bool) (w t : List Char) :
    ciIsPre ci w (w ++ t) = true := by
  induction w with
  | nil => rfl
  | cons c cs ih => simp [ciIsPre, ih]

theorem strMk_data : ∀ s : String, String.mk s.data = s
  | ⟨_⟩ => rfl

theorem rmatch_rseq_nil (ci : Bool) (s : List Char) (caps : Caps) (k : Cont) :
    rmatch ci (rseq []) s caps k = k s caps := rfl

theorem rmatch_rseq_cons (ci : Bool) (r : Regex) (rs : List Regex) (s : List Char)
    (caps : Caps) (k : Cont) :
    rmatch ci (rseq (r :: rs)) s caps k
      = rmatch ci r s caps (fun s' c' => rmatch ci (rseq rs) s' c' k) := rfl

theorem rmatch_rseq_append (ci : Bool) (xs ys : List Regex) (s : List Char)
    (caps : Caps) (k : Cont) :
    rmatch ci (rseq (xs ++ ys)) s caps k
      = rmatch ci (rseq xs) s caps (fun s' c' => rmatch ci (rseq ys) s' c' k) := by
  induction xs generalizing s caps with
  | nil => rfl
  | cons x xs ih =>
    simp only [List.cons_append, rmatch_rseq_cons]
    congr 1
    funext s' c'
    exact ih s' c'

theorem litsL_cons (c : Char) (cs : List Char) : litsL (c :: cs) = .lit c :: litsL cs := rfl

theorem rmatch_lit_cons (ci : Bool) (c : Char) {x : Char} {xs : List Char} {caps : Caps}
    {k : Cont} (h : eqc ci x c = true) :
    rmatch ci (.lit c) (x :: xs) caps k = k xs caps := by
  simp [rmatch, h]

theorem rmatch_cls_cons (ci : Bool) (cc : CharClass) {x : Char} {xs : List Char}
    {caps : Caps} {k : Cont} (h : cmatch ci cc x = true) :
    rmatch ci (.cls cc) (x :: xs) caps k = k xs caps := by
  simp [rmatch, h]

theorem rmatch_litsL (ci : Bool) (w : List Char) (s : List Char) (caps : Caps) (k : Cont) :
    rmatch ci (rseq (litsL w)) s caps k
      = if ciIsPre ci w s then k (s.drop w.length) caps else none := by
  induction w generalizing s caps with
  | nil => simp [litsL, ciIsPre, rmatch_rseq_nil]
  | cons c cs ih =>
    rw [litsL_cons, rmatch_rseq_cons]
    cases s with
    | nil => simp [rmatch, ciIsPre]
    | cons d s' =>
      by_cases h : eqc ci d c = true
      · simp only [rmatch_lit_cons ci c h, ih s' caps, ciIsPre, h, Bool.true_and,
          List.length_cons, List.drop_succ_cons]
      · have h' : eqc ci d c = false := by simpa using h
        simp [rmatch, h', ciIsPre]

theorem leadCount_all_append (ci : Bool) (cc : CharClass) {v : List Char} (w : List Char)
    (hv : ∀ c ∈ v, cmatch ci cc c = true) :
    leadCount ci cc (v ++ w) = v.length + leadCount ci cc w := by
  induction v with
  | nil => simp [leadCount]
  | cons c cs ih =>
    have hc := hv c (by simp)
    have ih' := ih (fun c hc' => hv c (by simp [hc']))
    simp only [List.cons_append, leadCount, hc, if_true, List.append_eq, ih',
      List.length_cons]
    omega

theorem leadCount_not_cons (ci : Bool) (cc : CharClass) (c : Char) (w : List Char)
    (h : cmatch ci cc c = false) : leadCount ci cc (c :: w) = 0 := by
  simp [leadCount, h]

theorem tryFrom_max {s : List Char} {caps : Caps} {k : Cont} {m : Nat}
    {r : List Char × Caps} (h : k (s.drop m) caps = some r) :
    tryFrom s caps k m = some r := by
  cases m with
  | zero => simpa using h
  | succ j => simp [tryFrom, h]

theorem tryFrom_unique {s : List Char} {caps : Caps} {k : Cont} {m : Nat}
    {R : List Char × Caps}
    (hall : ∀ j, j ≤ m → k (s.drop j) caps = none ∨ k (s.drop j) caps = some R)
    (hex : ∃ j, j ≤ m ∧ k (s.drop j) caps = some R) :
    tryFrom s caps k m = some R := by
  induction m with
  | zero =>
    obtain ⟨j, hj, hk⟩ := hex
    have hj0 : j = 0 := Nat.le_zero.mp hj
    subst hj0
    simpa using hk
  | succ n ih =>
    rcases hall (n + 1) le_rfl with h | h
    · simp only [tryFrom, h]
      apply ih
      · intro j hj
        exact hall j (by omega)
      · obtain ⟨j, hj, hk⟩ := hex
        refine ⟨j, ?_, hk⟩
        rcases Nat.lt_or_ge j (n + 1) with h' | h'
        · omega
        · exfalso
          have hj' : j = n + 1 := by omega
          subst hj'
          rw [hk] at h
          cases h
    · simp [tryFrom, h]

theorem tryFromPos_max {s : List Char} {caps : Caps} {k : Cont} {m : Nat}
    {r : List Char × Caps} (hm : 1 ≤ m) (h : k (s.drop m) caps = some r) :
    tryFromPos s caps k m = some r := by
  cases m with
  | zero => omega
  | succ j => simp [tryFromPos, h]

theorem rmatch_star_exact (ci : Bool) (cc : CharClass) {v w : List Char} {caps : Caps}
    {k : Cont} {r : List Char × Caps}
    (hv : ∀ c ∈ v, cmatch ci cc c = true)
    (hw : leadCount ci cc w = 0)
    (h : k w caps = some r) :
    rmatch ci (.star cc) (v ++ w) caps k = some r := by
  show tryFrom (v ++ w) caps k (leadCount ci cc (v ++ w)) = some r
  rw [leadCount_all_append ci cc w hv, hw, Nat.add_zero]
  apply tryFrom_max
  rw [List.drop_left]
  exact h

theorem rmatch_star_zero (ci : Bool) (cc : CharClass) {w : List Char} {caps : Caps}
    {k : Cont} {r : List Char × Caps}
    (hw : leadCount ci cc w = 0)
    (h : k w caps = some r) :
    rmatch ci (.star cc) w caps k = some r := by
  have := rmatch_star_exact ci cc (v := []) (by simp) hw h
  simpa using this

theorem rmatch_plus_exact (ci : Bool) (cc : CharClass) {v w : List Char} {caps : Caps}
    {k : Cont} {r : List Char × Caps}
    (hv : ∀ c ∈ v, cmatch ci cc c = true)
    (hne : v ≠ [])
    (hw : leadCount ci cc w = 0)
    (h : k w caps = some r) :
    rmatch ci (.plus cc) (v ++ w) caps k = some r := by
  show tryFromPos (v ++ w) caps k (leadCount ci cc (v ++ w)) = some r
  rw [leadCount_all_append ci cc w hv, hw, Nat.add_zero]
  apply tryFromPos_max
  · cases v with
    | nil => exact absurd rfl hne
    | cons c cs => simp
  · rw [List.drop_left]
    exact h

theorem rmatch_group_eq (ci : Bool) (n : Nat) (r : Regex) (s : List Char) (caps : Caps)
    (k : Cont) :
    rmatch ci (.group n r) s caps k
      = rmatch ci r s caps
          (fun s' caps' =>
            k s' ((n, String.mk (s.take (s.length - s'.length))) :: caps')) := rfl

/-! ## Replacement lemmas -/

theorem searchIn_zero_of_execAt (ci : Bool) (re : Regex) (s : List Char)
    {rest : List Char} {caps : Caps} (h : execAt ci re s = some (rest, caps)) :
    searchIn ci re s 0 = some (0, rest, caps) := by
  cases s with
  | nil => simp [searchIn, h]
  | cons c t => simp [searchIn, h]

theorem replaceGo_nomatch (ci : Bool) (re : Regex) (repl : List Char) (fuel : Nat)
    (s : List Char) (h : searchIn ci re s 0 = none) :
    replaceGo ci re repl fuel s = s := by
  cases fuel with
  | zero => rfl
  | succ n => simp [replaceGo, h]

theorem regexReplace_nomatch (ci : Bool) (re : Regex) (repl s : String)
    (h : searchIn ci re s.data 0 = none) :
    regexReplace ci re repl s = s := by
  unfold regexReplace
  rw [replaceGo_nomatch _ _ _ _ _ h, strMk_data]

theorem replaceGo_nil (ci : Bool) (re : Regex) (repl : List Char) (fuel : Nat)
    (hnil : execAt ci re [] = none) :
    replaceGo ci re repl fuel [] = [] := by
  cases fuel with
  | zero => rfl
  | succ n =>
    have hs : searchIn ci re [] 0 = none := by
      unfold searchIn
      rw [hnil]
    simp [replaceGo, hs]

theorem replaceGo_whole (ci : Bool) (re : Regex) (repl : List Char) (fuel : Nat)
    {s : List Char} {caps : Caps} (h : execAt ci re s = some ([], caps))
    (hnil : execAt ci re [] = none) :
    replaceGo ci re repl (fuel + 1) s = applyTemplate caps repl := by
  have hs : s ≠ [] := by
    intro he
    subst he
    rw [hnil] at h
    cases h
  have hsearch := searchIn_zero_of_execAt ci re s h
  have hlen : ¬(s.length - 0 - List.length ([] : List Char) = 0) := by
    cases s with
    | nil => exact absurd rfl hs
    | cons c cs => simp
  simp only [replaceGo, hsearch, hlen, if_false, reduceIte]
  rw [replaceGo_nil ci re repl fuel hnil]
  simp

theorem regexReplace_whole (ci : Bool) (re : Regex) (repl s : String) {caps : Caps}
    (h : execAt ci re s.data = some ([], caps))
    (hnil : execAt ci re [] = none) :
    regexReplace ci re repl s = String.mk (applyTemplate caps repl.data) := by
  unfold regexReplace
  rw [replaceGo_whole ci re repl.data s.data.length h hnil]

theorem applyTemplate_cons_ne (caps : Caps) {c : Char} (rest : List Char) (hc : c ≠ '$') :
    applyTemplate caps (c :: rest) = c :: applyTemplate caps rest := by
  conv_lhs => rw [applyTemplate.eq_def]
  simp [hc]

theorem applyTemplate_nodollar (caps : Caps) {v : List Char} (w : List Char)
    (hv : ∀ c ∈ v, c ≠ '$') :
    applyTemplate caps (v ++ w) = v ++ applyTemplate caps w := by
  induction v with
  | nil => rfl
  | cons c cs ih =>
    have hc : ¬(c = '$') := hv c (by simp)
    have ih' := ih (fun c hc' => hv c (by simp [hc']))
    rw [List.cons_append, applyTemplate_cons_ne caps _ hc, ih', List.cons_append]

theorem applyTemplate_mask (caps : Caps) (mask : String)
    (hm : ∀ c ∈ mask.data, c ≠ '$') :
    applyTemplate caps (maskReplacement mask).data
      = (capLookup caps 1).data ++ mask.data ++ (capLookup caps 3).data := by
  have hdata : (maskReplacement mask).data = '$' :: '1' :: (mask.data ++ ['$', '3']) := rfl
  rw [hdata]
  have h1 : applyTemplate caps ('$' :: '1' :: (mask.data ++ ['$', '3']))
      = (capLookup caps 1).data ++ applyTemplate caps (mask.data ++ ['$', '3']) := by
    have hd : ('1' ≤ '1' ∧ '1' ≤ '9') := by decide
    have hn : ('1'.toNat - 48) = 1 := by decide
    simp [applyTemplate, hd, hn]
  rw [h1, applyTemplate_nodollar caps _ hm]
  have h3 : applyTemplate caps ['$', '3'] = (capLookup caps 3).data := by
    have h : applyTemplate caps ['$', '3']
        = (capLookup caps 3).data ++ applyTemplate caps [] := rfl
    rw [h]
    simp [applyTemplate]
  rw [h3, List.append_assoc]

/-! ## Character-class facts used by the locator-rule proofs -/

theorem eqc_true_symm {ci : Bool} {a b : Char} (h : eqc ci a b = true) :
    eqc ci b a = true := by
  cases ci with
  | false =>
    have h' : a = b := by simpa [eqc] using h
    simp [eqc, h']
  | true =>
    have h' : lowerc a = lowerc b := by simpa [eqc] using h
    simp [eqc, h']

theorem eqc_false_of_ne_low {ci : Bool} {c d : Char} (hd : d.toNat < 65) (h : c ≠ d) :
    eqc ci c d = false := by
  by_contra h'
  exact h (eqc_low hd (by simpa using h'))

theorem cmatch_notParen {ci : Bool} {c : Char} (h : c ≠ ')') :
    cmatch ci clsNotParen c = true := by
  simp [cmatch, clsNotParen, eqc_false_of_ne_low (by decide) h]

theorem cmatch_notParen_paren (ci : Bool) : cmatch ci clsNotParen ')' = false := by
  simp [cmatch, clsNotParen]

theorem cmatch_notQ {ci : Bool} {c : Char} (h1 : c ≠ '"') (h2 : c ≠ '\'') :
    cmatch ci clsNotQ c = true := by
  simp [cmatch, clsNotQ, eqc_false_of_ne_low (by decide) h1,
    eqc_false_of_ne_low (by decide) h2]

theorem cmatch_notQ_dq (ci : Bool) : cmatch ci clsNotQ '"' = false := by
  simp [cmatch, clsNotQ]

theorem cmatch_clsQ_dq (ci : Bool) : cmatch ci clsQ '"' = true := by
  simp [cmatch, clsQ]

theorem cmatch_space_eval (ci : Bool) (c : Char) :
    cmatch ci .space c = isSpaceChar c := rfl

theorem cmatch_word_eval (ci : Bool) (c : Char) :
    cmatch ci .word c = isWordChar c := rfl

theorem ciIsPre_append_right {ci : Bool} {p u : List Char} (t : List Char)
    (h : ciIsPre ci p u = true) : ciIsPre ci p (u ++ t) = true := by
  induction p generalizing u with
  | nil => rfl
  | cons c cs ih =>
    cases u with
    | nil => simp [ciIsPre] at h
    | cons d ds =>
      simp only [ciIsPre, Bool.and_eq_true, List.cons_append] at h ⊢
      exact ⟨h.1, ih h.2⟩

theorem ciIsPre_no_span {ci : Bool} {p : List Char} {x : Char} (hx : x.toNat < 65)
    (hp : ∀ c ∈ p, c ≠ x) :
    ∀ {w t : List Char}, ciIsPre ci p (w ++ x :: t) = true → p.length ≤ w.length := by
  induction p with
  | nil => simp
  | cons c cs ih =>
    intro w t h
    cases w with
    | nil =>
      simp only [List.nil_append, ciIsPre, Bool.and_eq_true] at h
      exact absurd (eqc_low hx (eqc_true_symm h.1)) (hp c (by simp))
    | cons d ws =>
      simp only [List.cons_append, ciIsPre, Bool.and_eq_true] at h
      have := ih (fun c hc => hp c (by simp [hc])) h.2
      simp only [List.length_cons]
      omega

theorem ciIsPre_length_le {ci : Bool} {p u : List Char} (h : ciIsPre ci p u = true) :
    p.length ≤ u.length := by
  induction p generalizing u with
  | nil => simp
  | cons c cs ih =>
    cases u with
    | nil => simp [ciIsPre] at h
    | cons d ds =>
      simp only [ciIsPre, Bool.and_eq_true] at h
      have := ih h.2
      simp only [List.length_cons]
      omega

/-- The text a capturing group records when the group spans exactly the
prefix `u` of the remaining input. -/
theorem capture_group_arg (u v : List Char) :
    (u ++ v).take ((u ++ v).length - v.length) = u := by
  have h : (u ++ v).length - v.length = u.length := by simp
  rw [h, List.take_left]

/-! ## `applyScrubRules` lemmas -/

theorem applyScrubRules_append (rs₁ rs₂ : List ScrubbingRule) (content : String) :
    applyScrubRules (rs₁ ++ rs₂) content
      = applyScrubRules rs₂ (applyScrubRules rs₁ content) := by
  unfold applyScrubRules
  exact List.foldl_append _ _ _ _

theorem applyScrubRules_skip_bad (bad : ScrubbingRule) (rs : List ScrubbingRule)
    (content : String) (h : createRegexPattern bad = none) :
    applyScrubRules (bad :: rs) content = applyScrubRules rs content := by
  unfold applyScrubRules
  simp [h]

theorem applyScrubRules_nomatch (rules : List ScrubbingRule) (content : String)
    (h : ∀ r ∈ rules, ∀ cre, createRegexPattern r = some cre →
      searchIn cre.ci cre.re content.data 0 = none) :
    applyScrubRules rules content = content := by
  induction rules with
  | nil => rfl
  | cons r rs ih =>
    have hstep :
        (match createRegexPattern r with
          | some cre => regexReplace cre.ci cre.re r.replacement content
          | none => content) = content := by
      cases hc : createRegexPattern r with
      | none => rfl
      | some cre => exact regexReplace_nomatch _ _ _ _ (h r (by simp) cre hc)
    calc applyScrubRules (r :: rs) content
        = applyScrubRules rs
            (match createRegexPattern r with
              | some cre => regexReplace cre.ci cre.re r.replacement content
              | none => content) := rfl
      _ = applyScrubRules rs content := by rw [hstep]
      _ = content := ih (fun r' hr' => h r' (by simp [hr']))

/-! ## Locator-rule matching lemmas -/

theorem rmatch_tail_quote (ci : Bool) {fin : List Char} {caps : Caps} {k : Cont}
    {r : List Char × Caps} (hk : k fin caps = some r) :
    rmatch ci (rseq [Regex.star .space, Regex.lit '(', Regex.star .space, Regex.cls clsQ])
      ('(' :: '"' :: fin) caps k = some r := by
  rw [rmatch_rseq_cons]
  refine rmatch_star_zero ci .space ?_ ?_
  · exact leadCount_not_cons _ _ _ _ (by rw [cmatch_space_eval]; decide)
  show rmatch ci (rseq [Regex.lit '(', Regex.star .space, Regex.cls clsQ])
    ('(' :: '"' :: fin) caps k = some r
  rw [rmatch_rseq_cons, rmatch_lit_cons ci '(' (eqc_refl ci '(')]
  show rmatch ci (rseq [Regex.star .space, Regex.cls clsQ]) ('"' :: fin) caps k = some r
  rw [rmatch_rseq_cons]
  refine rmatch_star_zero ci .space ?_ ?_
  · exact leadCount_not_cons _ _ _ _ (by rw [cmatch_space_eval]; decide)
  show rmatch ci (rseq [Regex.cls clsQ]) ('"' :: fin) caps k = some r
  rw [rmatch_rseq_cons, rmatch_cls_cons ci clsQ (cmatch_clsQ_dq ci)]
  show rmatch ci (rseq []) fin caps k = some r
  rw [rmatch_rseq_nil, hk]

theorem rmatch_after_method (ci : Bool) (mthL : List Char) {fin : List Char} {caps : Caps}
    {k : Cont} {r : List Char × Caps} (hk : k fin caps = some r) :
    rmatch ci (rseq ([Regex.lit '.'] ++ litsL mthL ++
        [Regex.star .space, Regex.lit '(', Regex.star .space, Regex.cls clsQ]))
      ('.' :: (mthL ++ '(' :: '"' :: fin)) caps k = some r := by
  show rmatch ci (rseq (Regex.lit '.' :: (litsL mthL ++
      [Regex.star .space, Regex.lit '(', Regex.star .space, Regex.cls clsQ])))
    ('.' :: (mthL ++ '(' :: '"' :: fin)) caps k = some r
  rw [rmatch_rseq_cons, rmatch_lit_cons ci '.' (eqc_refl ci '.')]
  show rmatch ci (rseq (litsL mthL ++
      [Regex.star .space, Regex.lit '(', Regex.star .space, Regex.cls clsQ]))
    (mthL ++ '(' :: '"' :: fin) caps k = some r
  rw [rmatch_rseq_append, rmatch_litsL, if_pos (ciIsPre_self_append ci mthL _), List.drop_left]
  exact rmatch_tail_quote ci hk

theorem rmatch_after_id (ci : Bool) (mthL : List Char) {w fin : List Char} {caps : Caps}
    {k : Cont} {r : List Char × Caps}
    (hw : ∀ c ∈ w, c ≠ ')') (hk : k fin caps = some r) :
    rmatch ci (rseq ([Regex.star clsNotParen, Regex.lit ')'] ++
        ([Regex.lit '.'] ++ litsL mthL ++
          [Regex.star .space, Regex.lit '(', Regex.star .space, Regex.cls clsQ])))
      (w ++ ')' :: '.' :: (mthL ++ '(' :: '"' :: fin)) caps k = some r := by
  show rmatch ci (rseq (Regex.star clsNotParen :: Regex.lit ')' ::
      ([Regex.lit '.'] ++ litsL mthL ++
        [Regex.star .space, Regex.lit '(', Regex.star .space, Regex.cls clsQ])))
    (w ++ ')' :: '.' :: (mthL ++ '(' :: '"' :: fin)) caps k = some r
  rw [rmatch_rseq_cons]
  refine rmatch_star_exact ci clsNotParen (fun c hc => cmatch_notParen (hw c hc)) ?_ ?_
  · exact leadCount_not_cons _ _ _ _ (cmatch_notParen_paren ci)
  show rmatch ci (rseq (Regex.lit ')' ::
      ([Regex.lit '.'] ++ litsL mthL ++
        [Regex.star .space, Regex.lit '(', Regex.star .space, Regex.cls clsQ])))
    (')' :: '.' :: (mthL ++ '(' :: '"' :: fin)) caps k = some r
  rw [rmatch_rseq_cons, rmatch_lit_cons ci ')' (eqc_refl ci ')')]
  exact rmatch_after_method ci mthL hk

theorem rmatch_with_id (ci : Bool) (idL mthL : List Char) {u w : List Char} {q : Caps}
    {k : Cont} {r : List Char × Caps}
    (hu : ∀ c ∈ u, c ≠ ')') (hid : ∀ c ∈ idL, c ≠ ')') (hk : k w q = some r) :
    rmatch ci (rseq (litsL idL ++ ([Regex.star clsNotParen, Regex.lit ')'] ++
        ([Regex.lit '.'] ++ litsL mthL ++
          [Regex.star .space, Regex.lit '(', Regex.star .space, Regex.cls clsQ]))))
      (u ++ ')' :: '.' :: (mthL ++ '(' :: '"' :: w)) q k
    = if ciIsPre ci idL (u ++ ')' :: '.' :: (mthL ++ '(' :: '"' :: w)) then some r
      else none := by
  rw [rmatch_rseq_append, rmatch_litsL]
  by_cases hpre : ciIsPre ci idL (u ++ ')' :: '.' :: (mthL ++ '(' :: '"' :: w)) = true
  · rw [if_pos hpre, if_pos hpre]
    have hle : idL.length ≤ u.length := ciIsPre_no_span (by decide) hid hpre
    show rmatch ci (rseq ([Regex.star clsNotParen, Regex.lit ')'] ++
        ([Regex.lit '.'] ++ litsL mthL ++
          [Regex.star .space, Regex.lit '(', Regex.star .space, Regex.cls clsQ])))
      ((u ++ ')' :: '.' :: (mthL ++ '(' :: '"' :: w)).drop idL.length) q k = some r
    rw [List.drop_append_of_le_length hle]
    exact rmatch_after_id ci mthL (fun c hc => hu c (List.drop_subset _ _ hc)) hk
  · rw [if_neg hpre, if_neg hpre]

theorem rmatch_star_id (ci : Bool) (idL mthL : List Char) {inner fin : List Char}
    {caps : Caps} {k : Cont} {r : List Char × Caps}
    (hinner : ∀ c ∈ inner, c ≠ ')') (hid : ∀ c ∈ idL, c ≠ ')')
    (hocc : ∃ j, j ≤ inner.length ∧ ciIsPre ci idL (inner.drop j) = true)
    (hk : k fin caps = some r) :
    rmatch ci (rseq (Regex.star clsNotParen :: (litsL idL ++
        ([Regex.star clsNotParen, Regex.lit ')'] ++
          ([Regex.lit '.'] ++ litsL mthL ++
            [Regex.star .space, Regex.lit '(', Regex.star .space, Regex.cls clsQ])))))
      (inner ++ ')' :: '.' :: (mthL ++ '(' :: '"' :: fin)) caps k = some r := by
  rw [rmatch_rseq_cons]
  show tryFrom (inner ++ ')' :: '.' :: (mthL ++ '(' :: '"' :: fin)) caps _
    (leadCount ci clsNotParen (inner ++ ')' :: '.' :: (mthL ++ '(' :: '"' :: fin))) = some r
  have hm : leadCount ci clsNotParen (inner ++ ')' :: '.' :: (mthL ++ '(' :: '"' :: fin))
      = inner.length := by
    rw [leadCount_all_append ci clsNotParen _ (fun c hc => cmatch_notParen (hinner c hc)),
      leadCount_not_cons _ _ _ _ (cmatch_notParen_paren ci)]
    omega
  rw [hm]
  apply tryFrom_unique (R := r)
  · intro j hj
    rw [List.drop_append_of_le_length hj]
    have heq := rmatch_with_id ci idL mthL
      (u := inner.drop j) (w := fin) (q := caps) (k := k)
      (fun c hc => hinner c (List.drop_subset _ _ hc)) hid hk
    by_cases hpre :
        ciIsPre ci idL ((inner.drop j) ++ ')' :: '.' :: (mthL ++ '(' :: '"' :: fin)) = true
    · right
      rw [heq, if_pos hpre]
    · left
      rw [heq, if_neg hpre]
  · obtain ⟨j, hj, hpre⟩ := hocc
    refine ⟨j, hj, ?_⟩
    rw [List.drop_append_of_le_length hj]
    have heq := rmatch_with_id ci idL mthL
      (u := inner.drop j) (w := fin) (q := caps) (k := k)
      (fun c hc => hinner c (List.drop_subset _ _ hc)) hid hk
    rw [heq, if_pos (ciIsPre_append_right _ hpre)]

theorem rmatch_close_groups (ci : Bool) (secretL : List Char) {caps : Caps} {k : Cont}
    {r : List Char × Caps}
    (hsec : ∀ c ∈ secretL, c ≠ '"' ∧ c ≠ '\'')
    (hk : k [] ((3, String.mk ['"', ')']) :: (4, String.mk ['"', ')']) ::
        (2, String.mk secretL) :: caps) = some r) :
    rmatch ci (rseq [Regex.group 2 (rseq [Regex.star clsNotQ]),
        Regex.group 3 (rseq [Regex.group 4
          (rseq [Regex.cls clsQ, Regex.star .space, Regex.lit ')'])])])
      (secretL ++ ['"', ')']) caps k = some r := by
  rw [rmatch_rseq_cons, rmatch_group_eq, rmatch_rseq_cons]
  refine rmatch_star_exact ci clsNotQ
    (fun c hc => cmatch_notQ (hsec c hc).1 (hsec c hc).2)
    (leadCount_not_cons _ _ _ _ (cmatch_notQ_dq ci)) ?_
  show rmatch ci (rseq ([] : List Regex)) ['"', ')'] caps
    (fun s' c' =>
      rmatch ci (rseq [Regex.group 3 (rseq [Regex.group 4
          (rseq [Regex.cls clsQ, Regex.star .space, Regex.lit ')'])])])
        s' ((2, String.mk ((secretL ++ ['"', ')']).take
          ((secretL ++ ['"', ')']).length - s'.length))) :: c') k) = some r
  rw [rmatch_rseq_nil]
  show rmatch ci (rseq [Regex.group 3 (rseq [Regex.group 4
      (rseq [Regex.cls clsQ, Regex.star .space, Regex.lit ')'])])])
    ['"', ')'] ((2, String.mk ((secretL ++ ['"', ')']).take
      ((secretL ++ ['"', ')']).length - (['"', ')'] : List Char).length))) :: caps) k = some r
  rw [capture_group_arg]
  rw [rmatch_rseq_cons, rmatch_group_eq, rmatch_rseq_cons, rmatch_group_eq,
    rmatch_rseq_cons, rmatch_cls_cons ci clsQ (cmatch_clsQ_dq ci)]
  show rmatch ci (rseq [Regex.star .space, Regex.lit ')']) [')']
    ((2, String.mk secretL) :: caps) _ = some r
  rw [rmatch_rseq_cons]
  refine rmatch_star_zero ci .space
    (leadCount_not_cons _ _ _ _ (by rw [cmatch_space_eval]; decide)) ?_
  show rmatch ci (rseq [Regex.lit ')']) [')'] ((2, String.mk secretL) :: caps) _ = some r
  rw [rmatch_rseq_cons, rmatch_lit_cons ci ')' (eqc_refl ci ')')]
  show rmatch ci (rseq []) [] ((2, String.mk secretL) :: caps) _ = some r
  rw [rmatch_rseq_nil]
  simpa using hk

/-- The full JS match of the generic locator rule on a well-formed
`.locator(<selector containing the identifier>).<method>("<secret>")` call:
the match consumes the whole input; group 1 captures everything up to and
including the opening quote of the value argument, group 2 the value, and
groups 3 and 4 the closing quote and parenthesis. -/
theorem execAt_genericLocator (ci : Bool) (id mth : String) (aL bL secretL : List Char)
    (hidP : ∀ c ∈ id.data, c ≠ ')') (haP : ∀ c ∈ aL, c ≠ ')') (hbP : ∀ c ∈ bL, c ≠ ')')
    (hsec : ∀ c ∈ secretL, c ≠ '"' ∧ c ≠ '\'') :
    execAt ci (genericLocatorRuleAst id mth)
      (".locator".data ++ '(' :: ((aL ++ (id.data ++ bL)) ++
        ')' :: '.' :: (mth.data ++ '(' :: '"' :: (secretL ++ ['"', ')']))))
    = some ([],
        [(3, String.mk ['"', ')']), (4, String.mk ['"', ')']), (2, String.mk secretL),
         (1, String.mk (".locator".data ++ '(' :: ((aL ++ (id.data ++ bL)) ++
            ')' :: '.' :: (mth.data ++ ['(', '"']))))]) := by
  have hinner : ∀ c ∈ aL ++ (id.data ++ bL), c ≠ ')' := by
    intro c hc
    rcases List.mem_append.mp hc with h | h
    · exact haP c h
    rcases List.mem_append.mp h with h | h
    · exact hidP c h
    · exact hbP c h
  have hsplit : ".locator".data ++ '(' :: ((aL ++ (id.data ++ bL)) ++
        ')' :: '.' :: (mth.data ++ '(' :: '"' :: (secretL ++ ['"', ')'])))
      = (".locator".data ++ '(' :: ((aL ++ (id.data ++ bL)) ++
          ')' :: '.' :: (mth.data ++ ['(', '"']))) ++ (secretL ++ ['"', ')']) := by
    simp [List.append_assoc]
  show rmatch ci (genericLocatorRuleAst id mth) _ [] _ = _
  unfold genericLocatorRuleAst locatorRuleAst
  rw [rmatch_rseq_cons, rmatch_group_eq]
  have hbody : (litsOf ".locator" ++
        [Regex.star .space, Regex.lit '(', Regex.star clsNotParen] ++
        litsOf id ++ [Regex.star clsNotParen, Regex.lit ')']) ++ [Regex.lit '.'] ++
        litsOf mth ++
        [Regex.star .space, Regex.lit '(', Regex.star .space, Regex.cls clsQ]
      = litsL ".locator".data ++ (Regex.star .space :: Regex.lit '(' ::
          (Regex.star clsNotParen :: (litsL id.data ++
            ([Regex.star clsNotParen, Regex.lit ')'] ++
              ([Regex.lit '.'] ++ litsL mth.data ++
                [Regex.star .space, Regex.lit '(', Regex.star .space,
                 Regex.cls clsQ]))))) := by
    simp [litsOf, litsL, List.append_assoc]
  rw [hbody, rmatch_rseq_append, rmatch_litsL,
    if_pos (ciIsPre_self_append ci ".locator".data _), List.drop_left]
  show rmatch ci (rseq (Regex.star .space :: Regex.lit '(' ::
      (Regex.star clsNotParen :: (litsL id.data ++
        ([Regex.star clsNotParen, Regex.lit ')'] ++
          ([Regex.lit '.'] ++ litsL mth.data ++
            [Regex.star .space, Regex.lit '(', Regex.star .space, Regex.cls clsQ]))))))
    ('(' :: ((aL ++ (id.data ++ bL)) ++
      ')' :: '.' :: (mth.data ++ '(' :: '"' :: (secretL ++ ['"', ')'])))) [] _ = _
  rw [rmatch_rseq_cons]
  refine rmatch_star_zero ci .space
    (leadCount_not_cons _ _ _ _ (by rw [cmatch_space_eval]; decide)) ?_
  show rmatch ci (rseq (Regex.lit '(' ::
      (Regex.star clsNotParen :: (litsL id.data ++
        ([Regex.star clsNotParen, Regex.lit ')'] ++
          ([Regex.lit '.'] ++ litsL mth.data ++
            [Regex.star .space, Regex.lit '(', Regex.star .space, Regex.cls clsQ]))))))
    ('(' :: ((aL ++ (id.data ++ bL)) ++
      ')' :: '.' :: (mth.data ++ '(' :: '"' :: (secretL ++ ['"', ')'])))) [] _ = _
  rw [rmatch_rseq_cons, rmatch_lit_cons ci '(' (eqc_refl ci '(')]
  refine rmatch_star_id ci id.data mth.data hinner hidP ?_ ?_
  · refine ⟨aL.length, by simp, ?_⟩
    rw [List.drop_left]
    exact ciIsPre_self_append ci id.data bL
  · show rmatch ci (rseq [Regex.group 2 (rseq [Regex.star clsNotQ]),
        Regex.group 3 (rseq [Regex.group 4
          (rseq [Regex.cls clsQ, Regex.star .space, Regex.lit ')'])])])
      (secretL ++ ['"', ')'])
      [(1, String.mk ((".locator".data ++ '(' :: ((aL ++ (id.data ++ bL)) ++
          ')' :: '.' :: (mth.data ++ '(' :: '"' :: (secretL ++ ['"', ')'])))).take
        ((".locator".data ++ '(' :: ((aL ++ (id.data ++ bL)) ++
          ')' :: '.' :: (mth.data ++ '(' :: '"' :: (secretL ++ ['"', ')'])))).length -
          (secretL ++ ['"', ')']).length)))]
      (fun s' caps => some (s', caps)) = _
    rw [hsplit, capture_group_arg]
    refine rmatch_close_groups ci secretL hsec ?_
    rfl

/-- The full JS match of the generic `getBy*` rule on a well-formed
`.getBy<Name>(<selector containing the identifier>).<method>("<secret>")`
call: groups as in `execAt_genericLocator`. -/
theorem execAt_genericGetBy (ci : Bool) (id mth M : String) (aL bL secretL : List Char)
    (hM : M.data ≠ []) (hMw : ∀ c ∈ M.data, isWordChar c = true)
    (hidP : ∀ c ∈ id.data, c ≠ ')') (haP : ∀ c ∈ aL, c ≠ ')') (hbP : ∀ c ∈ bL, c ≠ ')')
    (hsec : ∀ c ∈ secretL, c ≠ '"' ∧ c ≠ '\'') :
    execAt ci (genericGetByRuleAst id mth)
      (".getBy".data ++ (M.data ++ '(' :: ((aL ++ (id.data ++ bL)) ++
        ')' :: '.' :: (mth.data ++ '(' :: '"' :: (secretL ++ ['"', ')'])))))
    = some ([],
        [(3, String.mk ['"', ')']), (4, String.mk ['"', ')']), (2, String.mk secretL),
         (1, String.mk (".getBy".data ++ (M.data ++ '(' :: ((aL ++ (id.data ++ bL)) ++
            ')' :: '.' :: (mth.data ++ ['(', '"'])))))]) := by
  have hinner : ∀ c ∈ aL ++ (id.data ++ bL), c ≠ ')' := by
    intro c hc
    rcases List.mem_append.mp hc with h | h
    · exact haP c h
    rcases List.mem_append.mp h with h | h
    · exact hidP c h
    · exact hbP c h
  have hsplit : ".getBy".data ++ (M.data ++ '(' :: ((aL ++ (id.data ++ bL)) ++
        ')' :: '.' :: (mth.data ++ '(' :: '"' :: (secretL ++ ['"', ')']))))
      = (".getBy".data ++ (M.data ++ '(' :: ((aL ++ (id.data ++ bL)) ++
          ')' :: '.' :: (mth.data ++ ['(', '"'])))) ++ (secretL ++ ['"', ')']) := by
    simp [List.append_assoc]
  show rmatch ci (genericGetByRuleAst id mth) _ [] _ = _
  unfold genericGetByRuleAst locatorRuleAst
  rw [rmatch_rseq_cons, rmatch_group_eq]
  have hbody : (litsOf ".getBy" ++
        [Regex.plus .word, Regex.star .space, Regex.lit '(', Regex.star clsNotParen] ++
        litsOf id ++ [Regex.star clsNotParen, Regex.lit ')']) ++ [Regex.lit '.'] ++
        litsOf mth ++
        [Regex.star .space, Regex.lit '(', Regex.star .space, Regex.cls clsQ]
      = litsL ".getBy".data ++ (Regex.plus .word :: Regex.star .space :: Regex.lit '(' ::
          (Regex.star clsNotParen :: (litsL id.data ++
            ([Regex.star clsNotParen, Regex.lit ')'] ++
              ([Regex.lit '.'] ++ litsL mth.data ++
                [Regex.star .space, Regex.lit '(', Regex.star .space,
                 Regex.cls clsQ]))))) := by
    simp [litsOf, litsL, List.append_assoc]
  rw [hbody, rmatch_rseq_append, rmatch_litsL,
    if_pos (ciIsPre_self_append ci ".getBy".data _), List.drop_left]
  show rmatch ci (rseq (Regex.plus .word :: Regex.star .space :: Regex.lit '(' ::
      (Regex.star clsNotParen :: (litsL id.data ++
        ([Regex.star clsNotParen, Regex.lit ')'] ++
          ([Regex.lit '.'] ++ litsL mth.data ++
            [Regex.star .space, Regex.lit '(', Regex.star .space, Regex.cls clsQ]))))))
    (M.data ++ '(' :: ((aL ++ (id.data ++ bL)) ++
      ')' :: '.' :: (mth.data ++ '(' :: '"' :: (secretL ++ ['"', ')'])))) [] _ = _
  rw [rmatch_rseq_cons]
  refine rmatch_plus_exact ci .word
    (fun c hc => by rw [cmatch_word_eval]; exact hMw c hc) hM
    (leadCount_not_cons _ _ _ _ (by rw [cmatch_word_eval]; decide)) ?_
  show rmatch ci (rseq (Regex.star .space :: Regex.lit '(' ::
      (Regex.star clsNotParen :: (litsL id.data ++
        ([Regex.star clsNotParen, Regex.lit ')'] ++
          ([Regex.lit '.'] ++ litsL mth.data ++
            [Regex.star .space, Regex.lit '(', Regex.star .space, Regex.cls clsQ]))))))
    ('(' :: ((aL ++ (id.data ++ bL)) ++
      ')' :: '.' :: (mth.data ++ '(' :: '"' :: (secretL ++ ['"', ')'])))) [] _ = _
  rw [rmatch_rseq_cons]
  refine rmatch_star_zero ci .space
    (leadCount_not_cons _ _ _ _ (by rw [cmatch_space_eval]; decide)) ?_
  show rmatch ci (rseq (Regex.lit '(' ::
      (Regex.star clsNotParen :: (litsL id.data ++
        ([Regex.star clsNotParen, Regex.lit ')'] ++
          ([Regex.lit '.'] ++ litsL mth.data ++
            [Regex.star .space, Regex.lit '(', Regex.star .space, Regex.cls clsQ]))))))
    ('(' :: ((aL ++ (id.data ++ bL)) ++
      ')' :: '.' :: (mth.data ++ '(' :: '"' :: (secretL ++ ['"', ')'])))) [] _ = _
  rw [rmatch_rseq_cons, rmatch_lit_cons ci '(' (eqc_refl ci '(')]
  refine rmatch_star_id ci id.data mth.data hinner hidP ?_ ?_
  · refine ⟨aL.length, by simp, ?_⟩
    rw [List.drop_left]
    exact ciIsPre_self_append ci id.data bL
  · show rmatch ci (rseq [Regex.group 2 (rseq [Regex.star clsNotQ]),
        Regex.group 3 (rseq [Regex.group 4
          (rseq [Regex.cls clsQ, Regex.star .space, Regex.lit ')'])])])
      (secretL ++ ['"', ')'])
      [(1, String.mk ((".getBy".data ++ (M.data ++ '(' :: ((aL ++ (id.data ++ bL)) ++
          ')' :: '.' :: (mth.data ++ '(' :: '"' :: (secretL ++ ['"', ')']))))).take
        ((".getBy".data ++ (M.data ++ '(' :: ((aL ++ (id.data ++ bL)) ++
          ')' :: '.' :: (mth.data ++ '(' :: '"' :: (secretL ++ ['"', ')']))))).length -
          (secretL ++ ['"', ')']).length)))]
      (fun s' caps => some (s', caps)) = _
    rw [hsplit, capture_group_arg]
    refine rmatch_close_groups ci secretL hsec ?_
    rfl

theorem strData_append (a b : String) : (a ++ b).data = a.data ++ b.data := rfl

theorem execAt_genericLocator_nil (ci : Bool) (id mth : String) :
    execAt ci (genericLocatorRuleAst id mth) [] = none := rfl

theorem execAt_genericGetBy_nil (ci : Bool) (id mth : String) :
    execAt ci (genericGetByRuleAst id mth) [] = none := rfl

/-- Applying the generic locator rule to a well-formed
`.locator(…identifier…).fill("secret")` call rewrites exactly the value
argument to the configured mask. -/
theorem genericLocator_fill_masks (config : LocatorRuleConfig)
    (identifier a b secret : String)
    (hidP : ∀ c ∈ identifier.data, c ≠ ')')
    (haP : ∀ c ∈ a.data, c ≠ ')') (hbP : ∀ c ∈ b.data, c ≠ ')')
    (hsec : ∀ c ∈ secret.data, c ≠ '"' ∧ c ≠ '\'')
    (hmask : ∀ c ∈ (getMaskValue config).data, c ≠ '$') :
    applyScrubRules [mkFactoryRule (genericLocatorRuleSrc identifier "fill")
        (genericLocatorRuleAst identifier "fill") config]
      (".locator(" ++ a ++ identifier ++ b ++ ").fill(\"" ++ secret ++ "\")")
    = ".locator(" ++ a ++ identifier ++ b ++ ").fill(\"" ++ getMaskValue config ++ "\")" := by
  have hin : (".locator(" ++ a ++ identifier ++ b ++ ").fill(\"" ++ secret ++ "\")").data
      = ".locator".data ++ '(' :: ((a.data ++ (identifier.data ++ b.data)) ++
          ')' :: '.' :: ("fill".data ++ '(' :: '"' :: (secret.data ++ ['"', ')']))) := by
    simp only [strData_append, List.append_assoc]
    rfl
  show regexReplace (ruleCi config) (genericLocatorRuleAst identifier "fill")
    (maskReplacement (getMaskValue config))
    (".locator(" ++ a ++ identifier ++ b ++ ").fill(\"" ++ secret ++ "\")") = _
  rw [regexReplace_whole _ _ _ _
    (by rw [hin]
        exact execAt_genericLocator (ruleCi config) identifier "fill"
          a.data b.data secret.data hidP haP hbP hsec)
    (execAt_genericLocator_nil _ _ _)]
  rw [applyTemplate_mask _ _ hmask]
  rw [← strMk_data (".locator(" ++ a ++ identifier ++ b ++ ").fill(\"" ++
    getMaskValue config ++ "\")")]
  apply congrArg String.mk
  show (".locator".data ++ '(' :: ((a.data ++ (identifier.data ++ b.data)) ++
      ')' :: '.' :: ("fill".data ++ ['(', '"']))) ++ (getMaskValue config).data ++
      ['"', ')'] = _
  simp only [strData_append, List.append_assoc, List.cons_append, List.nil_append]

/-- Applying the generic `getBy*` rule to a well-formed
`.getBy<Name>(…identifier…).fill("secret")` call rewrites exactly the value
argument to the configured mask. -/
theorem genericGetBy_fill_masks (config : LocatorRuleConfig)
    (identifier M a b secret : String)
    (hM : M.data ≠ []) (hMw : ∀ c ∈ M.data, isWordChar c = true)
    (hidP : ∀ c ∈ identifier.data, c ≠ ')')
    (haP : ∀ c ∈ a.data, c ≠ ')') (hbP : ∀ c ∈ b.data, c ≠ ')')
    (hsec : ∀ c ∈ secret.data, c ≠ '"' ∧ c ≠ '\'')
    (hmask : ∀ c ∈ (getMaskValue config).data, c ≠ '$') :
    applyScrubRules [mkFactoryRule (genericGetByRuleSrc identifier "fill")
        (genericGetByRuleAst identifier "fill") config]
      (".getBy" ++ M ++ "(" ++ a ++ identifier ++ b ++ ").fill(\"" ++ secret ++ "\")")
    = ".getBy" ++ M ++ "(" ++ a ++ identifier ++ b ++ ").fill(\"" ++
        getMaskValue config ++ "\")" := by
  have hin : (".getBy" ++ M ++ "(" ++ a ++ identifier ++ b ++ ").fill(\"" ++
        secret ++ "\")").data
      = ".getBy".data ++ (M.data ++ '(' :: ((a.data ++ (identifier.data ++ b.data)) ++
          ')' :: '.' :: ("fill".data ++ '(' :: '"' :: (secret.data ++ ['"', ')'])))) := by
    simp only [strData_append, List.append_assoc]
    rfl
  show regexReplace (ruleCi config) (genericGetByRuleAst identifier "fill")
    (maskReplacement (getMaskValue config))
    (".getBy" ++ M ++ "(" ++ a ++ identifier ++ b ++ ").fill(\"" ++ secret ++ "\")") = _
  rw [regexReplace_whole _ _ _ _
    (by rw [hin]
        exact execAt_genericGetBy (ruleCi config) identifier "fill" M
          a.data b.data secret.data hM hMw hidP haP hbP hsec)
    (execAt_genericGetBy_nil _ _ _)]
  rw [applyTemplate_mask _ _ hmask]
  rw [← strMk_data (".getBy" ++ M ++ "(" ++ a ++ identifier ++ b ++ ").fill(\"" ++
    getMaskValue config ++ "\")")]
  apply congrArg String.mk
  show (".getBy".data ++ (M.data ++ '(' :: ((a.data ++ (identifier.data ++ b.data)) ++
      ')' :: '.' :: ("fill".data ++ ['(', '"'])))) ++ (getMaskValue config).data ++
      ['"', ')'] = _
  simp only [strData_append, List.append_assoc, List.cons_append, List.nil_append]

/-! ## Lemmas supporting the claim theorems -/

theorem foldl_length_step {α β : Type} (F : List β → α → List β) (n : Nat)
    (hF : ∀ acc a, (F acc a).length = acc.length + n) :
    ∀ (l : List α) (init : List β),
      (l.foldl F init).length = init.length + n * l.length := by
  intro l
  induction l with
  | nil => intro init; simp
  | cons a l ih =>
    intro init
    rw [List.foldl_cons, ih, hF, List.length_cons, Nat.mul_succ]
    omega

theorem createRulesForIdentifier_length (id : String) (cfg : LocatorRuleConfig) :
    (createRulesForIdentifier id cfg).length = 11 := by
  simp [createRulesForIdentifier]

theorem createLocatorRules_length (p : PartialLocatorRuleConfig) :
    (createLocatorRules p).length
      = 11 * (mergeConfig DEFAULT_CONFIG p).sensitiveIdentifiers.length := by
  have h := foldl_length_step
    (fun rules identifier =>
      rules ++ createRulesForIdentifier identifier (mergeConfig DEFAULT_CONFIG p)) 11
    (fun acc a => by simp [createRulesForIdentifier])
    (mergeConfig DEFAULT_CONFIG p).sensitiveIdentifiers []
  simpa [createLocatorRules] using h

theorem createExtendedLocatorRules_length (p : PartialLocatorRuleConfig) :
    (createExtendedLocatorRules p).length
      = 8 * (mergeConfig DEFAULT_CONFIG p).sensitiveIdentifiers.length := by
  have h := foldl_length_step
    (fun rules identifier =>
      extendedMethods.foldl
        (fun rules' method =>
          rules' ++ createMethodRulesForIdentifier identifier method
            (mergeConfig DEFAULT_CONFIG p))
        rules) 8
    (fun acc a => by
      simp [extendedMethods, createMethodRulesForIdentifier])
    (mergeConfig DEFAULT_CONFIG p).sensitiveIdentifiers []
  simpa [createExtendedLocatorRules] using h

theorem findHtmlDir_eq_map (root : String) (rs : List ReporterEntry) :
    PlaywrightConfigParser.findHtmlDir root rs
      = (findHtmlDirFn rs).map (pathResolve root) := by
  induction rs with
  | nil => rfl
  | cons e rest ih =>
    cases e with
    | name n =>
      by_cases h : n = "html" <;>
        simp [PlaywrightConfigParser.findHtmlDir, findHtmlDirFn, h, ih]
    | pair n opts =>
      by_cases h : n = "html" <;>
        simp [PlaywrightConfigParser.findHtmlDir, findHtmlDirFn, h, ih]

theorem findHtmlDir_none_iff (root : String) (rs : List ReporterEntry) :
    (PlaywrightConfigParser.findHtmlDir root rs = none
      ↔ PlaywrightConfigParser.hasHtmlReporter rs = false) := by
  induction rs with
  | nil => simp [PlaywrightConfigParser.findHtmlDir, PlaywrightConfigParser.hasHtmlReporter]
  | cons e rest ih =>
    cases e with
    | name n =>
      by_cases h : n = "html" <;>
        simp [PlaywrightConfigParser.findHtmlDir, PlaywrightConfigParser.hasHtmlReporter,
          h, ih]
    | pair n opts =>
      by_cases h : n = "html" <;>
        simp [PlaywrightConfigParser.findHtmlDir, PlaywrightConfigParser.hasHtmlReporter,
          h, ih]

theorem cleanup_readFile_none (fs : FileSys) (d p : String)
    (hp : TraceScrubber.underDir d p = true) :
    readFile (TraceScrubber.cleanup fs d) p = none := by
  unfold readFile TraceScrubber.cleanup
  have h : ∀ l : List (String × String),
      (l.filter fun e => !TraceScrubber.underDir d e.1).find? (fun e => e.1 == p)
        = none := by
    intro l
    induction l with
    | nil => rfl
    | cons e rest ih =>
      by_cases he : TraceScrubber.underDir d e.1 = true
      · simpa [List.filter, he] using ih
      · have hne : (e.1 == p) = false := by
          by_contra hcon
          have : e.1 = p := by
            cases hep : (e.1 == p) with
            | false => exact absurd hep hcon
            | true => exact eq_of_beq hep
          rw [this] at he
          exact he hp
        simp only [List.filter, he]
        simp only [Bool.not_false, List.find?, hne]
        exact ih
  simp [h]

theorem scrubAllFiles_cons (opts : ScrubberOptions) (fs : FileSys)
    (g : String) (gs : List String) :
    HtmlReportScrubber.scrubAllFiles opts fs (g :: gs)
      = Except.bind (HtmlReportScrubber.scrubFile opts fs g)
          (fun e => Except.map (fun es => e ++ es)
            (HtmlReportScrubber.scrubAllFiles opts fs gs)) := rfl

/-! ## Matcher soundness and the locator-rule frame property -/

theorem tryFrom_sound {s : List Char} {caps : Caps} {k : Cont} {res : List Char × Caps} :
    ∀ {n : Nat}, tryFrom s caps k n = some res →
      ∃ j, j ≤ n ∧ k (s.drop j) caps = some res := by
  intro n
  induction n with
  | zero => intro h; exact ⟨0, le_rfl, by simpa using h⟩
  | succ m ih =>
    intro h
    unfold tryFrom at h
    cases hk : k (s.drop (m + 1)) caps with
    | some r =>
      rw [hk] at h
      exact ⟨m + 1, le_rfl, by rw [hk]; exact h⟩
    | none =>
      rw [hk] at h
      obtain ⟨j, hj, hkj⟩ := ih h
      exact ⟨j, by omega, hkj⟩

theorem tryFromPos_sound {s : List Char} {caps : Caps} {k : Cont} {res : List Char × Caps} :
    ∀ {n : Nat}, tryFromPos s caps k n = some res →
      ∃ j, 1 ≤ j ∧ j ≤ n ∧ k (s.drop j) caps = some res := by
  intro n
  induction n with
  | zero => intro h; cases h
  | succ m ih =>
    intro h
    unfold tryFromPos at h
    cases hk : k (s.drop (m + 1)) caps with
    | some r =>
      rw [hk] at h
      exact ⟨m + 1, by omega, le_rfl, by rw [hk]; exact h⟩
    | none =>
      rw [hk] at h
      obtain ⟨j, hj1, hj, hkj⟩ := ih h
      exact ⟨j, hj1, by omega, hkj⟩

theorem take_all_of_le_leadCount {ci : Bool} {cc : CharClass} :
    ∀ {s : List Char} {j : Nat}, j ≤ leadCount ci cc s →
      ∀ c ∈ s.take j, cmatch ci cc c = true := by
  intro s
  induction s with
  | nil => intro j hj c hc; simp at hc
  | cons x xs ih =>
    intro j hj c hc
    cases j with
    | zero => simp at hc
    | succ m =>
      by_cases hx : cmatch ci cc x = true
      · rw [leadCount, if_pos hx] at hj
        rcases (by simpa using hc : c = x ∨ c ∈ xs.take m) with h | h
        · rw [h]; exact hx
        · exact ih (by omega) c h
      · rw [leadCount, if_neg hx] at hj
        omega

theorem leadCount_le_length (ci : Bool) (cc : CharClass) :
    ∀ s : List Char, leadCount ci cc s ≤ s.length := by
  intro s
  induction s with
  | nil => simp [leadCount]
  | cons x xs ih =>
    by_cases hx : cmatch ci cc x = true
    · rw [leadCount, if_pos hx]; simpa using ih
    · rw [leadCount, if_neg hx]; simp

/-- Soundness of the backtracking matcher: a successful run splits the input
into a matched prefix (related to the regex by `Matches`) and a remainder
passed to the continuation with the extended captures. -/
theorem rmatch_sound (ci : Bool) :
    ∀ (re : Regex) {s : List Char} {caps : Caps} {k : Cont} {res : List Char × Caps},
      rmatch ci re s caps k = some res →
      ∃ t u caps', s = t ++ u ∧ Matches ci re t caps caps' ∧ k u caps' = some res := by
  intro re
  induction re with
  | eps =>
    intro s caps k res h
    exact ⟨[], s, caps, rfl, .eps caps, h⟩
  | lit c =>
    intro s caps k res h
    cases s with
    | nil => cases h
    | cons x xs =>
      have h' : (if eqc ci x c = true then k xs caps else none) = some res := h
      by_cases hx : eqc ci x c = true
      · rw [if_pos hx] at h'
        exact ⟨[x], xs, caps, rfl, .lit c x caps hx, h'⟩
      · rw [if_neg hx] at h'; cases h'
  | cls cc =>
    intro s caps k res h
    cases s with
    | nil => cases h
    | cons x xs =>
      have h' : (if cmatch ci cc x = true then k xs caps else none) = some res := h
      by_cases hx : cmatch ci cc x = true
      · rw [if_pos hx] at h'
        exact ⟨[x], xs, caps, rfl, .cls cc x caps hx, h'⟩
      · rw [if_neg hx] at h'; cases h'
  | star cc =>
    intro s caps k res h
    obtain ⟨j, hj, hkj⟩ := tryFrom_sound (h : tryFrom s caps k (leadCount ci cc s) = some res)
    exact ⟨s.take j, s.drop j, caps, (List.take_append_drop j s).symm,
      .star cc _ caps (take_all_of_le_leadCount hj), hkj⟩
  | plus cc =>
    intro s caps k res h
    obtain ⟨j, hj1, hj, hkj⟩ :=
      tryFromPos_sound (h : tryFromPos s caps k (leadCount ci cc s) = some res)
    have hlen : j ≤ s.length := le_trans hj (leadCount_le_length ci cc s)
    have hne : s.take j ≠ [] := by
      cases s with
      | nil => simp at hlen; omega
      | cons x xs =>
        cases j with
        | zero => omega
        | succ m => simp
    exact ⟨s.take j, s.drop j, caps, (List.take_append_drop j s).symm,
      .plus cc _ caps hne (take_all_of_le_leadCount hj), hkj⟩
  | quest cc =>
    intro s caps k res h
    cases s with
    | nil => exact ⟨[], [], caps, rfl, .quest0 cc caps, h⟩
    | cons x xs =>
      have h' : (if cmatch ci cc x = true then
          (match k xs caps with
            | some r => some r
            | none => k (x :: xs) caps)
          else k (x :: xs) caps) = some res := h
      by_cases hx : cmatch ci cc x = true
      · rw [if_pos hx] at h'
        cases hk : k xs caps with
        | some r =>
          rw [hk] at h'
          exact ⟨[x], xs, caps, rfl, .quest1 cc x caps hx, by rw [hk]; exact h'⟩
        | none =>
          rw [hk] at h'
          exact ⟨[], x :: xs, caps, rfl, .quest0 cc caps, h'⟩
      · rw [if_neg hx] at h'
        exact ⟨[], x :: xs, caps, rfl, .quest0 cc caps, h'⟩
  | seq a b iha ihb =>
    intro s caps k res h
    obtain ⟨t₁, u₁, caps₁, hs, hM₁, hk₁⟩ := iha h
    obtain ⟨t₂, u, caps₂, hu₁, hM₂, hk⟩ := ihb hk₁
    refine ⟨t₁ ++ t₂, u, caps₂, ?_, .seq a b t₁ t₂ caps caps₁ caps₂ hM₁ hM₂, hk⟩
    rw [hs, hu₁, List.append_assoc]
  | group n r ihr =>
    intro s caps k res h
    obtain ⟨t, u, caps', hs, hM, hk⟩ := ihr h
    refine ⟨t, u, (n, String.mk t) :: caps', hs, .group n r t caps caps' hM, ?_⟩
    have htake : s.take (s.length - u.length) = t := by
      rw [hs]; exact capture_group_arg t u
    rw [← htake]
    exact hk
theorem execAt_sound {ci : Bool} {re : Regex} {s rest : List Char} {caps : Caps}
    (h : execAt ci re s = some (rest, caps)) :
    ∃ t, s = t ++ rest ∧ Matches ci re t [] caps := by
  obtain ⟨t, u, caps', hs, hM, hk⟩ := rmatch_sound ci re h
  have hu : u = rest ∧ caps' = caps := by
    cases hk
    exact ⟨rfl, rfl⟩
  exact ⟨t, by rw [hs, hu.1], by rw [← hu.2]; exact hM⟩

theorem searchIn_sound {ci : Bool} {re : Regex} :
    ∀ {s : List Char} {p pos : Nat} {rest : List Char} {caps : Caps},
      searchIn ci re s p = some (pos, rest, caps) →
      ∃ pre t, s = pre ++ t ++ rest ∧ pos = p + pre.length ∧ Matches ci re t [] caps := by
  intro s
  induction s with
  | nil =>
    intro p pos rest caps h
    unfold searchIn at h
    cases he : execAt ci re [] with
    | none => rw [he] at h; cases h
    | some v =>
      rw [he] at h
      obtain ⟨rfl, rfl, rfl⟩ : pos = p ∧ v.1 = rest ∧ v.2 = caps := by
        cases h; exact ⟨rfl, rfl, rfl⟩
      obtain ⟨t, hs, hM⟩ := execAt_sound (by rw [he])
      exact ⟨[], t, by simpa using hs, by simp, hM⟩
  | cons c tail ih =>
    intro p pos rest caps h
    unfold searchIn at h
    cases he : execAt ci re (c :: tail) with
    | some v =>
      rw [he] at h
      obtain ⟨rfl, rfl, rfl⟩ : pos = p ∧ v.1 = rest ∧ v.2 = caps := by
        cases h; exact ⟨rfl, rfl, rfl⟩
      obtain ⟨t, hs, hM⟩ := execAt_sound (by rw [he])
      exact ⟨[], t, by simpa using hs, by simp, hM⟩
    | none =>
      rw [he] at h
      obtain ⟨pre, t, hs, hpos, hM⟩ := ih h
      exact ⟨c :: pre, t, by simp [hs], by simp [hpos]; omega, hM⟩

theorem matches_groupFree_caps {ci : Bool} {re : Regex} {t : List Char}
    {caps caps' : Caps} (h : Matches ci re t caps caps') (hg : groupFree re = true) :
    caps' = caps := by
  induction h with
  | eps => rfl
  | lit => rfl
  | cls => rfl
  | star => rfl
  | plus => rfl
  | quest0 => rfl
  | quest1 => rfl
  | seq a b t₁ t₂ caps caps₁ caps₂ ha hb iha ihb =>
    have hg' : groupFree a = true ∧ groupFree b = true := by
      simpa [groupFree, Bool.and_eq_true] using hg
    rw [ihb hg'.2, iha hg'.1]
  | group n r t caps caps' h ih => simp [groupFree] at hg

theorem matches_rseq_nil_inv {ci : Bool} {t : List Char} {caps caps' : Caps}
    (h : Matches ci (rseq []) t caps caps') : t = [] ∧ caps' = caps := by
  have h' : Matches ci .eps t caps caps' := h
  cases h'
  exact ⟨rfl, rfl⟩

theorem matches_rseq_cons_inv {ci : Bool} {r : Regex} {rs : List Regex} {t : List Char}
    {caps caps' : Caps} (h : Matches ci (rseq (r :: rs)) t caps caps') :
    ∃ t₁ t₂ caps₁, t = t₁ ++ t₂ ∧ Matches ci r t₁ caps caps₁ ∧
      Matches ci (rseq rs) t₂ caps₁ caps' := by
  have h' : Matches ci (.seq r (rseq rs)) t caps caps' := h
  cases h' with
  | seq _ _ t₁ t₂ _ caps₁ _ ha hb => exact ⟨t₁, t₂, caps₁, rfl, ha, hb⟩

theorem matches_rseq_append_inv {ci : Bool} :
    ∀ {xs : List Regex} {ys : List Regex} {t : List Char} {caps caps' : Caps},
      Matches ci (rseq (xs ++ ys)) t caps caps' →
      ∃ t₁ t₂ capsM, t = t₁ ++ t₂ ∧ Matches ci (rseq xs) t₁ caps capsM ∧
        Matches ci (rseq ys) t₂ capsM caps' := by
  intro xs
  induction xs with
  | nil =>
    intro ys t caps caps' h
    exact ⟨[], t, caps, rfl, .eps caps, h⟩
  | cons x xs ih =>
    intro ys t caps caps' h
    obtain ⟨t₁, t₂, caps₁, ht, hx, hrest⟩ := matches_rseq_cons_inv h
    obtain ⟨t₃, t₄, capsM, ht₂, hxs, hys⟩ := ih hrest
    refine ⟨t₁ ++ t₃, t₄, capsM, ?_, ?_, hys⟩
    · rw [ht, ht₂, List.append_assoc]
    · show Matches ci (.seq x (rseq xs)) (t₁ ++ t₃) caps capsM
      exact .seq x (rseq xs) t₁ t₃ caps caps₁ capsM hx hxs

theorem matches_lit_inv {ci : Bool} {c : Char} {t : List Char} {caps caps' : Caps}
    (h : Matches ci (.lit c) t caps caps') :
    ∃ x, t = [x] ∧ eqc ci x c = true ∧ caps' = caps := by
  cases h with
  | lit _ x _ hx => exact ⟨x, rfl, hx, rfl⟩

theorem matches_cls_inv {ci : Bool} {cc : CharClass} {t : List Char} {caps caps' : Caps}
    (h : Matches ci (.cls cc) t caps caps') :
    ∃ x, t = [x] ∧ cmatch ci cc x = true ∧ caps' = caps := by
  cases h with
  | cls _ x _ hx => exact ⟨x, rfl, hx, rfl⟩

theorem matches_star_inv {ci : Bool} {cc : CharClass} {t : List Char} {caps caps' : Caps}
    (h : Matches ci (.star cc) t caps caps') :
    (∀ c ∈ t, cmatch ci cc c = true) ∧ caps' = caps := by
  cases h with
  | star _ _ _ hall => exact ⟨hall, rfl⟩

theorem matches_group_inv {ci : Bool} {n : Nat} {r : Regex} {t : List Char}
    {caps caps' : Caps} (h : Matches ci (.group n r) t caps caps') :
    ∃ capsI, caps' = (n, String.mk t) :: capsI ∧ Matches ci r t caps capsI := by
  cases h with
  | group _ _ _ _ capsI hI => exact ⟨capsI, rfl, hI⟩

theorem groupFreeL_litsOf (s : String) : groupFreeL (litsOf s) = true := by
  show (s.data.map Regex.lit).all groupFree = true
  induction s.data with
  | nil => rfl
  | cons c cs ih => simp [groupFree, ih]

theorem groupFreeL_litsL (w : List Char) : groupFreeL (litsL w) = true := by
  show (w.map Regex.lit).all groupFree = true
  induction w with
  | nil => rfl
  | cons c cs ih => simp [groupFree, ih]

theorem groupFree_rseq {rs : List Regex} (h : groupFreeL rs = true) :
    groupFree (rseq rs) = true := by
  induction rs with
  | nil => rfl
  | cons r rest ih =>
    simp only [groupFreeL, List.all_cons, Bool.and_eq_true] at h
    show groupFree (.seq r (rseq rest)) = true
    simp [groupFree, h.1, ih h.2]

theorem groupFreeL_append {xs ys : List Regex} :
    groupFreeL (xs ++ ys) = (groupFreeL xs && groupFreeL ys) := by
  simp [groupFreeL, List.all_append]
/-- Any match of a factory locator rule decomposes: group 1 captures
everything through the opening value delimiter, group 2 the quote-free
value, and groups 3/4 the closing delimiter and parenthesis. -/
theorem locatorRule_matches_decomp {ci : Bool} {sel : List Regex} {mth : String}
    {t : List Char} {capsF : Caps}
    (hsel : groupFreeL sel = true)
    (h : Matches ci (locatorRuleAst sel mth) t [] capsF) :
    ∃ g1 g2 g3,
      t = g1 ++ (g2 ++ g3) ∧
      capsF = [(3, String.mk g3), (4, String.mk g3), (2, String.mk g2),
        (1, String.mk g1)] ∧
      (∀ c ∈ g2, cmatch ci clsNotQ c = true) ∧
      (∃ g0 q1, g1 = g0 ++ [q1] ∧ cmatch ci clsQ q1 = true) ∧
      (∃ q2 sp, g3 = q2 :: (sp ++ [')']) ∧ cmatch ci clsQ q2 = true ∧
        ∀ c ∈ sp, isSpaceChar c = true) := by
  unfold locatorRuleAst at h
  obtain ⟨g1, t23, caps1, ht, h1, h23⟩ := matches_rseq_cons_inv h
  obtain ⟨g2, t3, caps2, ht23, h2, h3⟩ := matches_rseq_cons_inv h23
  obtain ⟨g3, tnil, caps3, ht3, h3', hnil⟩ := matches_rseq_cons_inv h3
  obtain ⟨htnil, hcaps3⟩ := matches_rseq_nil_inv hnil
  subst htnil
  -- group 1: its body is group-free, so it contributes only its own capture
  obtain ⟨capsA, hcaps1, hbody1⟩ := matches_group_inv h1
  have hbody1free : groupFree (rseq (sel ++ [Regex.lit '.'] ++ litsOf mth ++
      [Regex.star .space, Regex.lit '(', Regex.star .space, Regex.cls clsQ])) = true := by
    apply groupFree_rseq
    rw [groupFreeL_append, groupFreeL_append, groupFreeL_append, hsel, groupFreeL_litsOf]
    decide
  have hcapsA : capsA = [] := matches_groupFree_caps hbody1 hbody1free
  subst hcapsA
  -- group 1 ends with the opening delimiter
  have hg1shape : ∃ g0 q1, g1 = g0 ++ [q1] ∧ cmatch ci clsQ q1 = true := by
    have hrealign : sel ++ [Regex.lit '.'] ++ litsOf mth ++
        [Regex.star .space, Regex.lit '(', Regex.star .space, Regex.cls clsQ]
        = (sel ++ [Regex.lit '.'] ++ litsOf mth ++
            [Regex.star .space, Regex.lit '(', Regex.star .space]) ++ [Regex.cls clsQ] := by
      simp [List.append_assoc]
    rw [hrealign] at hbody1
    obtain ⟨t0, tq, capsM, hg1, _, hq⟩ := matches_rseq_append_inv hbody1
    obtain ⟨tq1, tq2, capsN, htq, hq1, hqnil⟩ := matches_rseq_cons_inv hq
    obtain ⟨x, htq1, hx, _⟩ := matches_cls_inv hq1
    obtain ⟨htq2, _⟩ := matches_rseq_nil_inv hqnil
    exact ⟨t0, x, by rw [hg1, htq, htq1, htq2]; simp, hx⟩
  -- group 2: the quote-free value
  obtain ⟨capsB, hcaps2, hbody2⟩ := matches_group_inv h2
  obtain ⟨tb1, tb2, capsB1, hg2, hstar2, hnil2⟩ := matches_rseq_cons_inv hbody2
  obtain ⟨hall2, hcapsB1⟩ := matches_star_inv hstar2
  obtain ⟨htb2, hcapsB⟩ := matches_rseq_nil_inv hnil2
  have hg2' : g2 = tb1 := by rw [hg2, htb2, List.append_nil]
  -- group 3 wraps group 4: `["']\s*\)`
  obtain ⟨capsC, hcaps3', hbody3⟩ := matches_group_inv h3'
  obtain ⟨tc1, tc2, capsC1, hg3, hg4, hnil3⟩ := matches_rseq_cons_inv hbody3
  obtain ⟨htc2, hcapsC1⟩ := matches_rseq_nil_inv hnil3
  obtain ⟨capsD, hcapsC1', hbody4⟩ := matches_group_inv hg4
  obtain ⟨td1, td2, capsD1, htc1, hcls4, hrest4⟩ := matches_rseq_cons_inv hbody4
  obtain ⟨q2, htd1, hq2, hcapsD1⟩ := matches_cls_inv hcls4
  obtain ⟨te1, te2, capsE, htd2, hsp4, hrest5⟩ := matches_rseq_cons_inv hrest4
  obtain ⟨hallsp, hcapsE⟩ := matches_star_inv hsp4
  obtain ⟨tf1, tf2, capsG, hte2, hlit4, hnil4⟩ := matches_rseq_cons_inv hrest5
  obtain ⟨y, htf1, hy, hcapsG⟩ := matches_lit_inv hlit4
  obtain ⟨htf2, hcapsGD⟩ := matches_rseq_nil_inv hnil4
  have hyc : y = ')' := eqc_low (by decide) hy
  have htc1eq : tc1 = g3 := by rw [hg3, htc2, List.append_nil]
  have hg3shape : g3 = q2 :: (te1 ++ [')']) := by
    rw [← htc1eq, htc1, htd1, htd2, hte2, htf1, htf2, hyc]
    simp
  refine ⟨g1, g2, g3, ?_, ?_, ?_, hg1shape, ⟨q2, te1, hg3shape, hq2, ?_⟩⟩
  · rw [ht, ht23, ht3]
    simp
  · rw [hcaps3, hcaps3', hcapsC1, hcapsC1', htc1eq, hcapsGD, hcapsG, hcapsE, hcapsD1,
      hcaps2, hcapsB, hcapsB1, hcaps1]
  · intro c hc
    exact hall2 c (by rw [← hg2']; exact hc)
  · intro c hc
    have := hallsp c hc
    rwa [cmatch_space_eval] at this
theorem cmatch_notQ_ne {ci : Bool} {c : Char} (h : cmatch ci clsNotQ c = true) :
    c ≠ '"' ∧ c ≠ '\'' := by
  constructor
  · rintro rfl
    rw [cmatch_notQ_dq] at h
    cases h
  · rintro rfl
    have : cmatch ci clsNotQ '\'' = false := by
      simp [cmatch, clsNotQ, eqc_refl]
    rw [this] at h
    cases h

/-- Every `fill`-operation rule of the factory — the eleven syntax-specific
rules and the two generic ones — is a compiled `locatorRuleAst` over a
group-free selector, with the mask replacement template. -/
theorem factory_fill_rule_shape (identifier : String) (config : LocatorRuleConfig)
    (rule : ScrubbingRule)
    (hmem : rule ∈ createRulesForIdentifier identifier config ++
      createMethodRulesForIdentifier identifier "fill" config) :
    ∃ src sel,
      rule = mkFactoryRule src (locatorRuleAst sel "fill") config ∧
      groupFreeL sel = true ∧
      (∀ cb : Bool, execAt cb (locatorRuleAst sel "fill") [] = none) := by
  simp only [createRulesForIdentifier, createMethodRulesForIdentifier,
    List.mem_append, List.mem_cons, List.not_mem_nil, or_false] at hmem
  rcases hmem with (rfl | rfl | rfl | rfl | rfl | rfl | rfl | rfl | rfl | rfl | rfl) |
    (rfl | rfl) <;>
    refine ⟨_, _, rfl, ?_, fun cb => rfl⟩ <;>
    simp only [xpathAttrSelector, getByNameSelector, groupFreeL_append,
      groupFreeL_litsOf, Bool.true_and, Bool.and_true] <;>
    decide

theorem regexReplace_end_match (ci : Bool) (re : Regex) (repl s : String)
    {pos : Nat} {caps : Caps}
    (h : searchIn ci re s.data 0 = some (pos, [], caps))
    (hpos : pos < s.data.length)
    (hnil : execAt ci re [] = none) :
    regexReplace ci re repl s
      = String.mk (s.data.take pos ++ applyTemplate caps repl.data) := by
  unfold regexReplace
  have hlen : ¬(s.data.length - pos - List.length ([] : List Char) = 0) := by
    simp only [List.length_nil, Nat.sub_zero]
    omega
  simp only [replaceGo, h, hlen, if_false, reduceIte]
  rw [replaceGo_nil ci re repl.data s.data.length hnil]
  simp
/-- The uniform masking property of every `fill` rule of the factory: when
the compiled pattern matches the content through its end, the content splits
as `pre ++ g1 ++ value ++ g3`, the captures are exactly those segments, the
value lies between the quote delimiters, and the scrub rewrites only the
value to the configured mask. -/
theorem factory_fill_rule_masks_only_value (config : LocatorRuleConfig)
    (identifier : String) (rule : ScrubbingRule)
    (hmem : rule ∈ createRulesForIdentifier identifier config ++
      createMethodRulesForIdentifier identifier "fill" config)
    (cre : CompiledRegex) (hcre : createRegexPattern rule = some cre)
    (content : String) (pos : Nat) (caps : Caps)
    (hsearch : searchIn cre.ci cre.re content.data 0 = some (pos, [], caps))
    (hmask : ∀ c ∈ (getMaskValue config).data, c ≠ '$') :
    ∃ pre g1 g2 g3,
      content.data = pre ++ (g1 ++ (g2 ++ g3)) ∧
      pre.length = pos ∧
      capLookup caps 1 = String.mk g1 ∧
      capLookup caps 2 = String.mk g2 ∧
      capLookup caps 3 = String.mk g3 ∧
      (∀ c ∈ g2, c ≠ '"' ∧ c ≠ '\'') ∧
      (∃ g0 q1, g1 = g0 ++ [q1] ∧ cmatch cre.ci clsQ q1 = true) ∧
      (∃ q2 sp, g3 = q2 :: (sp ++ [')']) ∧ cmatch cre.ci clsQ q2 = true ∧
        ∀ c ∈ sp, isSpaceChar c = true) ∧
      applyScrubRules [rule] content
        = String.mk (pre ++ (g1 ++ ((getMaskValue config).data ++ g3))) := by
  obtain ⟨src, sel, hrule, hselFree, hnil⟩ :=
    factory_fill_rule_shape identifier config rule hmem
  subst hrule
  have hcre' : cre = ⟨ruleCi config, locatorRuleAst sel "fill"⟩ := by
    have : createRegexPattern (mkFactoryRule src (locatorRuleAst sel "fill") config)
        = some ⟨ruleCi config, locatorRuleAst sel "fill"⟩ := rfl
    rw [this] at hcre
    injection hcre with h
    exact h.symm
  subst hcre'
  obtain ⟨pre, t, hs, hpos, hM⟩ := searchIn_sound hsearch
  obtain ⟨g1, g2, g3, htdec, hcaps, hg2, hg1s, hg3s⟩ :=
    locatorRule_matches_decomp hselFree hM
  have hsplit : content.data = pre ++ (g1 ++ (g2 ++ g3)) := by
    rw [hs, htdec]
    simp
  have hposeq : pre.length = pos := by omega
  have hg3ne : g3 ≠ [] := by
    obtain ⟨q2, sp, hq, _, _⟩ := hg3s
    rw [hq]
    simp
  have hposlt : pos < content.data.length := by
    rw [hsplit, ← hposeq]
    have : g3.length ≠ 0 := fun hz => hg3ne (List.eq_nil_of_length_eq_zero hz)
    simp
    omega
  have hcap1 : capLookup caps 1 = String.mk g1 := by rw [hcaps]; rfl
  have hcap2 : capLookup caps 2 = String.mk g2 := by rw [hcaps]; rfl
  have hcap3 : capLookup caps 3 = String.mk g3 := by rw [hcaps]; rfl
  refine ⟨pre, g1, g2, g3, hsplit, hposeq, hcap1, hcap2, hcap3,
    fun c hc => cmatch_notQ_ne (hg2 c hc), hg1s, hg3s, ?_⟩
  show regexReplace (ruleCi config) (locatorRuleAst sel "fill")
    (maskReplacement (getMaskValue config)) content = _
  rw [regexReplace_end_match _ _ _ _ hsearch hposlt (hnil _)]
  rw [applyTemplate_mask _ _ hmask, hcap1, hcap3]
  have htake : content.data.take pos = pre := by
    rw [hsplit, ← hposeq]
    exact List.take_left' rfl
  rw [htake]
  apply congrArg String.mk
  simp [List.append_assoc]

/-! ## Claim theorems -/

/-- C2: For every locator-based rule generated from a sensitive identifier —
the eleven syntax-specific rules of `createRulesForIdentifier` and the two
generic rules of `createMethodRulesForIdentifier` — and every input on which
the rule's pattern matches through the end of the text, the content splits
as `pre ++ g1 ++ value ++ g3` where `g1` (the selector expression, operation
name and opening delimiter) and `g3` (the closing delimiter) are the
captured frame, the value lies strictly between the quote delimiters, and
applying the rule rewrites exactly the value to the configured mask,
reproducing `pre`, `g1` and `g3` byte for byte; moreover, for the two
generic rules, on every well-formed
`<selector containing the identifier>.fill("secret")` call the result is
exactly `<same selector>.fill("<mask>")`. -/
theorem C2_locator_rules_mask_only_the_value :
    (∀ (config : LocatorRuleConfig) (identifier : String) (rule : ScrubbingRule),
      rule ∈ createRulesForIdentifier identifier config ++
        createMethodRulesForIdentifier identifier "fill" config →
      ∀ cre, createRegexPattern rule = some cre →
      ∀ (content : String) (pos : Nat) (caps : Caps),
        searchIn cre.ci cre.re content.data 0 = some (pos, [], caps) →
        (∀ c ∈ (getMaskValue config).data, c ≠ '$') →
        ∃ pre g1 g2 g3,
          content.data = pre ++ (g1 ++ (g2 ++ g3)) ∧
          pre.length = pos ∧
          capLookup caps 1 = String.mk g1 ∧
          capLookup caps 2 = String.mk g2 ∧
          capLookup caps 3 = String.mk g3 ∧
          (∀ c ∈ g2, c ≠ '"' ∧ c ≠ '\'') ∧
          (∃ g0 q1, g1 = g0 ++ [q1] ∧ cmatch cre.ci clsQ q1 = true) ∧
          (∃ q2 sp, g3 = q2 :: (sp ++ [')']) ∧ cmatch cre.ci clsQ q2 = true ∧
            ∀ c ∈ sp, isSpaceChar c = true) ∧
          applyScrubRules [rule] content
            = String.mk (pre ++ (g1 ++ ((getMaskValue config).data ++ g3))))
    ∧ (∀ (config : LocatorRuleConfig) (identifier M a b secret : String),
        M.data ≠ [] → (∀ c ∈ M.data, isWordChar c = true) →
        (∀ c ∈ identifier.data, c ≠ ')') →
        (∀ c ∈ a.data, c ≠ ')') → (∀ c ∈ b.data, c ≠ ')') →
        (∀ c ∈ secret.data, c ≠ '"' ∧ c ≠ '\'') →
        (∀ c ∈ (getMaskValue config).data, c ≠ '$') →
        ∃ locRule getByRule,
          createMethodRulesForIdentifier identifier "fill" config = [locRule, getByRule]
          ∧ applyScrubRules [locRule]
              (".locator(" ++ a ++ identifier ++ b ++ ").fill(\"" ++ secret ++ "\")")
            = ".locator(" ++ a ++ identifier ++ b ++ ").fill(\"" ++
                getMaskValue config ++ "\")"
          ∧ applyScrubRules [getByRule]
              (".getBy" ++ M ++ "(" ++ a ++ identifier ++ b ++ ").fill(\"" ++
                secret ++ "\")")
            = ".getBy" ++ M ++ "(" ++ a ++ identifier ++ b ++ ").fill(\"" ++
                getMaskValue config ++ "\")") := by
  constructor
  · intro config identifier rule hmem cre hcre content pos caps hsearch hmask
    exact factory_fill_rule_masks_only_value config identifier rule hmem cre hcre
      content pos caps hsearch hmask
  · intro config identifier M a b secret hM hMw hidP haP hbP hsec hmask
    exact ⟨_, _, rfl,
      genericLocator_fill_masks config identifier a b secret hidP haP hbP hsec hmask,
      genericGetBy_fill_masks config identifier M a b secret hM hMw hidP haP hbP hsec
        hmask⟩

set_option maxRecDepth 16384 in
/-- Witness for C2: the css-id rule at identifier `password` on
`.locator("#password").fill("hunter2")`, and the two generic rules at a
concrete identifier, selector and secret, all under the default
configuration. -/
theorem C2_locator_rules_mask_only_the_value_witness :
    (∃ pre g1 g2 g3,
      (".locator(\"#password\").fill(\"hunter2\")" : String).data
        = pre ++ (g1 ++ (g2 ++ g3)) ∧
      pre.length = 0 ∧
      capLookup [(3, "\")"), (4, "\")"), (2, "hunter2"),
        (1, ".locator(\"#password\").fill(\"")] 1 = String.mk g1 ∧
      capLookup [(3, "\")"), (4, "\")"), (2, "hunter2"),
        (1, ".locator(\"#password\").fill(\"")] 2 = String.mk g2 ∧
      capLookup [(3, "\")"), (4, "\")"), (2, "hunter2"),
        (1, ".locator(\"#password\").fill(\"")] 3 = String.mk g3 ∧
      (∀ c ∈ g2, c ≠ '"' ∧ c ≠ '\'') ∧
      (∃ g0 q1, g1 = g0 ++ [q1] ∧ cmatch true clsQ q1 = true) ∧
      (∃ q2 sp, g3 = q2 :: (sp ++ [')']) ∧ cmatch true clsQ q2 = true ∧
        ∀ c ∈ sp, isSpaceChar c = true) ∧
      applyScrubRules
          [mkFactoryRule (cssIdRuleSrc "password") (cssIdRuleAst "password")
            (mergeConfig DEFAULT_CONFIG {})]
          ".locator(\"#password\").fill(\"hunter2\")"
        = String.mk (pre ++ (g1 ++
            ((getMaskValue (mergeConfig DEFAULT_CONFIG {})).data ++ g3))))
    ∧ (∃ locRule getByRule,
        createMethodRulesForIdentifier "password" "fill" (mergeConfig DEFAULT_CONFIG {})
          = [locRule, getByRule]
        ∧ applyScrubRules [locRule]
            (".locator(" ++ "\"#" ++ "password" ++ "\"" ++ ").fill(\"" ++
              "hunter2" ++ "\")")
          = ".locator(" ++ "\"#" ++ "password" ++ "\"" ++ ").fill(\"" ++
              getMaskValue (mergeConfig DEFAULT_CONFIG {}) ++ "\")"
        ∧ applyScrubRules [getByRule]
            (".getBy" ++ "Label" ++ "(" ++ "\"#" ++ "password" ++ "\"" ++
              ").fill(\"" ++ "hunter2" ++ "\")")
          = ".getBy" ++ "Label" ++ "(" ++ "\"#" ++ "password" ++ "\"" ++
              ").fill(\"" ++
              getMaskValue (mergeConfig DEFAULT_CONFIG {}) ++ "\")") :=
  ⟨C2_locator_rules_mask_only_the_value.1 (mergeConfig DEFAULT_CONFIG {}) "password"
    (mkFactoryRule (cssIdRuleSrc "password") (cssIdRuleAst "password")
      (mergeConfig DEFAULT_CONFIG {}))
    (List.mem_append_left _ (List.mem_cons_self _ _))
    ⟨true, cssIdRuleAst "password"⟩ rfl
    ".locator(\"#password\").fill(\"hunter2\")" 0
    [(3, "\")"), (4, "\")"), (2, "hunter2"), (1, ".locator(\"#password\").fill(\"")]
    rfl (by decide),
  C2_locator_rules_mask_only_the_value.2 (mergeConfig DEFAULT_CONFIG {})
    "password" "Label" "\"#" "\"" "hunter2"
    (by decide) (by decide) (by decide) (by decide) (by decide) (by decide) (by decide)⟩


/-- C1: a rule whose pattern fails to compile is skipped by
`applyScrubRules`, and the remaining rules are still applied to the
cumulative content, exactly as if the bad rule were absent. -/
theorem C1_invalid_rule_is_skipped (rs₁ rs₂ : List ScrubbingRule)
    (bad : ScrubbingRule) (content : String)
    (h : createRegexPattern bad = none) :
    applyScrubRules (rs₁ ++ bad :: rs₂) content
      = applyScrubRules (rs₁ ++ rs₂) content := by
  have h1 := applyScrubRules_append rs₁ (bad :: rs₂) content
  have h2 := applyScrubRules_skip_bad bad rs₂ (applyScrubRules rs₁ content) h
  have h3 := applyScrubRules_append rs₁ rs₂ content
  rw [h1, h2, h3]

theorem C1_invalid_rule_is_skipped_witness :
    createRegexPattern ruleBad = none
    ∧ applyScrubRules ([rulePw] ++ ruleBad :: [ruleNo]) "a hunter2 b"
        = applyScrubRules ([rulePw] ++ [ruleNo]) "a hunter2 b" :=
  ⟨rfl, C1_invalid_rule_is_skipped [rulePw] [ruleNo] ruleBad "a hunter2 b" rfl⟩

/-- C7: when no rule's pattern matches anywhere in the content,
`applyScrubRules` returns the content unchanged. -/
theorem C7_no_match_leaves_content_unchanged (rules : List ScrubbingRule)
    (content : String)
    (h : ∀ r ∈ rules, ruleHasMatch r content = false) :
    applyScrubRules rules content = content := by
  apply applyScrubRules_nomatch
  intro r hr cre hcre
  have hm := h r hr
  unfold ruleHasMatch at hm
  rw [hcre] at hm
  simp at hm
  exact hm

theorem C7_no_match_leaves_content_unchanged_witness :
    (∀ r ∈ [ruleNo], ruleHasMatch r "hello world" = false)
    ∧ applyScrubRules [ruleNo] "hello world" = "hello world" :=
  ⟨by decide, C7_no_match_leaves_content_unchanged [ruleNo] "hello world" (by decide)⟩

/-- C3 counterexample: no rule carries the pattern the claimed
(identifier × selector-syntax × operation) matrix would give the
(`password`, css-id, `type`) combination — the syntax-specific rules exist
for `fill` only. -/
theorem C3_counterexample_no_syntax_operation_product :
    ¬ ((getAllRules cfgPwd).countP
        (fun r => r.patternSrc == specSyntaxOpPattern .cssId "password" "type") = 1) := by
  decide

/-- C3 (amended): the factory creates eleven syntax-specific rules per
identifier for the `fill` operation only — exactly one per
(identifier × selector-syntax) — and for each of the four operations
`fill`, `type`, `selectOption`, `setInputFiles` exactly two generic rules
per identifier (a `.locator`-based and a `.getBy`-based one); there is no
syntax × operation product. -/
theorem C3_amended_rule_matrix :
    (∀ p, (createLocatorRules p).length
        = 11 * (mergeConfig DEFAULT_CONFIG p).sensitiveIdentifiers.length)
    ∧ (∀ p, (createExtendedLocatorRules p).length
        = 8 * (mergeConfig DEFAULT_CONFIG p).sensitiveIdentifiers.length)
    ∧ (syntaxList.all (fun syn =>
        (getAllRules cfgPwd).countP
          (fun r => r.patternSrc == specSyntaxOpPattern syn "password" "fill") == 1)
        = true)
    ∧ (extendedMethods.all (fun op =>
        ((getAllRules cfgPwd).countP
            (fun r => r.patternSrc == genericLocatorRuleSrc "password" op) == 1)
        && ((getAllRules cfgPwd).countP
            (fun r => r.patternSrc == genericGetByRuleSrc "password" op) == 1))
        = true) :=
  ⟨createLocatorRules_length, createExtendedLocatorRules_length, by decide, by decide⟩
/-- C4 counterexample: `use.trace = true` is truthy and not `"off"`, yet the
`index.ts` config locator reports no trace directory (it requires an object
with truthy `snapshots`); the class parser reports the resolved default. -/
theorem C4_counterexample_trace_bool_true :
    traceTruthy (.bool true) = true
    ∧ TraceSetting.bool true ≠ .str "off"
    ∧ pwdScrubberTraceDir "/proj" { use := some { trace := some (.bool true) } } = none
    ∧ PlaywrightConfigParser.getTraceDir "/proj"
        { use := some { trace := some (.bool true) } } = some "/proj/test-results" :=
  ⟨rfl, by decide, rfl, rfl⟩

/-- C4 (amended): for the class parser `PlaywrightConfigParser`, a trace
directory is reported exactly when `use.trace` is truthy and not the string
`"off"`, and it is `outputDir || 'test-results'` resolved against the
project root; the `index.ts` variant instead reports one exactly when
`use.trace` is an object with truthy `snapshots`. -/
theorem C4_amended_trace_dir (root : String) (config : PlaywrightConfig)
    (d : String) :
    (PlaywrightConfigParser.getTraceDir root config = some d ↔
      ∃ u t, config.use = some u ∧ u.trace = some t ∧ traceTruthy t = true ∧
        t ≠ .str "off" ∧ d = pathResolve root (jsStrOr config.outputDir "test-results"))
    ∧ (pwdScrubberTraceDir root config = some d ↔
      ∃ u, config.use = some u ∧ u.trace = some (.obj true) ∧
        d = pathResolve root (jsStrOr config.outputDir "test-results")) := by
  obtain ⟨rep, out, use⟩ := config
  cases use with
  | none =>
    constructor <;>
      simp [PlaywrightConfigParser.getTraceDir, pwdScrubberTraceDir]
  | some u =>
    obtain ⟨tr⟩ := u
    cases tr with
    | none =>
      constructor <;>
        simp [PlaywrightConfigParser.getTraceDir, pwdScrubberTraceDir]
    | some t =>
      cases t with
      | bool b =>
        cases b <;> constructor <;>
          (simp [PlaywrightConfigParser.getTraceDir, pwdScrubberTraceDir,
            traceTruthy]
           try exact eq_comm)
      | str s =>
        by_cases h0 : s = ""
        · subst h0
          constructor <;>
            simp [PlaywrightConfigParser.getTraceDir, pwdScrubberTraceDir,
              traceTruthy]
        · by_cases hoff : s = "off"
          · subst hoff
            constructor <;>
              simp [PlaywrightConfigParser.getTraceDir, pwdScrubberTraceDir,
                traceTruthy]
          · constructor <;>
              (simp [PlaywrightConfigParser.getTraceDir, pwdScrubberTraceDir,
                traceTruthy, h0, hoff]
               try exact eq_comm)
      | obj sn =>
        cases sn <;> constructor <;>
          (simp [PlaywrightConfigParser.getTraceDir, pwdScrubberTraceDir,
            traceTruthy]
           try exact eq_comm)

/-- C8 counterexample: a plain string `'html'` reporter entry counts as an
html reporter, yet the `index.ts` locator — which scans only
`[name, options]` pairs — reports no html directory for it, before and
after defaulting; the class parser reports the resolved default folder. -/
theorem C8_counterexample_string_html_entry :
    PlaywrightConfigParser.hasHtmlReporter [.name "html"] = true
    ∧ pwdScrubberHtmlDir "/proj" { reporter := some [.name "html"] } = none
    ∧ pwdScrubberHtmlDir "/proj"
        (addDefaultPaths { reporter := some [.name "html"] }) = none
    ∧ PlaywrightConfigParser.getHtmlReportDir "/proj"
        { reporter := some [.name "html"] } = some "/proj/playwright-report" :=
  ⟨rfl, rfl, rfl, rfl⟩

/-- C8 (amended): the class parser scans `reporter` for its first html
entry — the same scan as the functional parser, with the folder resolved
against the project root — and reports no html directory exactly when the
reporter list has no html entry (or is absent). -/
theorem C8_amended_html_dir (root : String) (config : PlaywrightConfig) :
    (PlaywrightConfigParser.getHtmlReportDir root config
      = (config.reporter.bind findHtmlDirFn).map (pathResolve root))
    ∧ (PlaywrightConfigParser.getHtmlReportDir root config = none ↔
        ∀ rs, config.reporter = some rs →
          PlaywrightConfigParser.hasHtmlReporter rs = false) := by
  constructor
  · cases hrep : config.reporter with
    | none => simp [PlaywrightConfigParser.getHtmlReportDir, hrep]
    | some rs =>
      simp [PlaywrightConfigParser.getHtmlReportDir, hrep, findHtmlDir_eq_map]
  · cases hrep : config.reporter with
    | none => simp [PlaywrightConfigParser.getHtmlReportDir, hrep]
    | some rs =>
      simp [PlaywrightConfigParser.getHtmlReportDir, hrep, findHtmlDir_none_iff]

/-- C5 (amended): an unreadable artifact is skipped — its `scrubFile` call
performs nothing and the loop continues with the remaining files — but an
error thrown for one artifact (a corrupt embedded archive) propagates
through `scrubAllFiles` and `scrub` and aborts the whole run. -/
theorem C5_amended_corrupt_artifact_aborts (opts : ScrubberOptions)
    (fs : FileSys) (f : String) (rest : List String) :
    (isFileAccessible fs f = false →
      HtmlReportScrubber.scrubFile opts fs f = .ok [] ∧
      HtmlReportScrubber.scrubAllFiles opts fs (f :: rest)
        = HtmlReportScrubber.scrubAllFiles opts fs rest)
    ∧ (∀ e, HtmlReportScrubber.scrubFile opts fs f = .error e →
        HtmlReportScrubber.scrubAllFiles opts fs (f :: rest) = .error e ∧
        PlaywrightResultScrubber.scrub opts fs (f :: rest) = .error e) := by
  constructor
  · intro hacc
    have h1 : HtmlReportScrubber.scrubFile opts fs f = .ok [] := by
      unfold HtmlReportScrubber.scrubFile
      simp [hacc]
    refine ⟨h1, ?_⟩
    rw [scrubAllFiles_cons, h1]
    cases hrest : HtmlReportScrubber.scrubAllFiles opts fs rest with
    | ok es => simp [hrest, Except.bind, Except.map]
    | error e => simp [hrest, Except.bind, Except.map]
  · intro e he
    have h1 : HtmlReportScrubber.scrubAllFiles opts fs (f :: rest) = .error e := by
      rw [scrubAllFiles_cons, he]
      rfl
    exact ⟨h1, by unfold PlaywrightResultScrubber.scrub; rw [h1]⟩

set_option maxRecDepth 16384 in
theorem C5_amended_corrupt_artifact_aborts_witness :
    (isFileAccessible fsC5 "missing.html" = false
      ∧ HtmlReportScrubber.scrubAllFiles optsC5 fsC5 ("missing.html" :: ["r/good.html"])
          = HtmlReportScrubber.scrubAllFiles optsC5 fsC5 ["r/good.html"])
    ∧ (HtmlReportScrubber.scrubFile optsC5 fsC5 "r/bad.html" = .error "invalid zip"
      ∧ HtmlReportScrubber.scrubAllFiles optsC5 fsC5 ("r/bad.html" :: ["r/good.html"])
          = .error "invalid zip") :=
  ⟨⟨rfl, ((C5_amended_corrupt_artifact_aborts optsC5 fsC5 "missing.html"
      ["r/good.html"]).1 rfl).2⟩,
   ⟨rfl, ((C5_amended_corrupt_artifact_aborts optsC5 fsC5 "r/bad.html"
      ["r/good.html"]).2 "invalid zip" rfl).1⟩⟩

set_option maxRecDepth 16384 in
/-- C5 counterexample: with a corrupt first artifact and a scrubbable second
one, the run aborts with the rethrown error — the second artifact, which
alone would be scrubbed (two effects), is never reached. -/
theorem C5_counterexample_corrupt_aborts_whole_run :
    HtmlReportScrubber.scrubFile optsC5 fsC5 "r/bad.html" = .error "invalid zip"
    ∧ okEffectCount (HtmlReportScrubber.scrubFile optsC5 fsC5 "r/good.html") = some 2
    ∧ PlaywrightResultScrubber.scrub optsC5 fsC5 ["r/bad.html", "r/good.html"]
        = .error "invalid zip" :=
  ⟨rfl, rfl, rfl⟩

/-- C6 (amended): the JSZip-based scrubber leaves a file whose content has
no `window.playwrightReportBase64` marker match completely untouched — no
write, no directory creation, no deletion; (the base64 variant instead
rewrites any file containing a bare `data:application/zip;base64,` URI). -/
theorem C6_amended_no_marker_untouched (opts : ScrubberOptions) (fs : FileSys)
    (f content : String) (hread : readFile fs f = some content)
    (hmark : regexExec false scriptPatternAst content = none) :
    HtmlReportScrubber.scrubFile opts fs f = .ok [] := by
  unfold HtmlReportScrubber.scrubFile
  cases hacc : isFileAccessible fs f with
  | false => simp [hacc]
  | true => simp [hacc, hread, hmark]

set_option maxRecDepth 16384 in
theorem C6_amended_no_marker_untouched_witness :
    HtmlReportScrubber.scrubFile optsC6 fsC6 "r/a.js" = .ok [] :=
  C6_amended_no_marker_untouched optsC6 fsC6 "r/a.js" contentC6 rfl rfl

set_option maxRecDepth 16384 in
/-- C6 counterexample: the base64-variant scrubber, on a file whose content
has no marker match (only a bare data-URI), still creates the output
directory, writes the byte-identical content to the output path, and
deletes the original. -/
theorem C6_counterexample_bare_data_uri_rewritten :
    regexExec false scriptPatternAst contentC6 = none
    ∧ HtmlReportScrubber.scrubFileB64 optsC6 fsC6 "r/a.js"
        = .ok [.mkdirp "out/r", .write "out/r/a.js" contentC6, .delete "r/a.js"] :=
  ⟨rfl, rfl⟩

/-- C10: when scrubbing changes no entry of the embedded archive, the
scrubber performs no effect at all — no write, no directory creation, no
deletion. -/
theorem C10_unchanged_entries_no_effects (opts : ScrubberOptions) (fs : FileSys)
    (f content : String) (entries : List ZipEntry)
    (hread : readFile fs f = some content)
    (hent : embeddedEntries content = some entries)
    (hnochange : ∀ e ∈ entries, e.isDir = false →
      applyScrubRules opts.rules e.content = e.content) :
    HtmlReportScrubber.scrubFile opts fs f = .ok [] := by
  unfold embeddedEntries at hent
  unfold HtmlReportScrubber.scrubFile
  cases hacc : isFileAccessible fs f with
  | false => simp [hacc]
  | true =>
    cases hm : regexExec false scriptPatternAst content with
    | none => rw [hm] at hent; cases hent
    | some m =>
      rw [hm] at hent
      simp only at hent
      have hfalse : (entries.any fun e =>
          !e.isDir && applyScrubRules opts.rules e.content != e.content) = false := by
        rw [List.any_eq_false]
        intro e he
        cases hd : e.isDir with
        | true => simp [hd]
        | false => simp [hd, hnochange e he hd]
      simp [hacc, hread, hm, hent, hfalse]

set_option maxRecDepth 16384 in
theorem C10_unchanged_entries_no_effects_witness :
    HtmlReportScrubber.scrubFile optsC10 fsC10 "r/i.html" = .ok [] :=
  C10_unchanged_entries_no_effects optsC10 fsC10 "r/i.html" contentC10 zipC10
    rfl rfl (by decide)

/-- C9: after `TraceScrubber.scrubFile`, no file under the per-archive
scratch directory remains, on the success path and on the failure path
alike. -/
theorem C9_temp_dir_removed_on_every_path (opts : ScrubberOptions)
    (cwd : String) (fs : FileSys) (filePath p : String)
    (hp : TraceScrubber.underDir (TraceScrubber.tempDirFor cwd filePath) p = true) :
    readFile (TraceScrubber.scrubFile opts cwd fs filePath).2 p = none := by
  unfold TraceScrubber.scrubFile
  cases hres : TraceScrubber.processTraceFile opts fs filePath
      (TraceScrubber.tempDirFor cwd filePath) with
  | ok fs' => simpa [hres] using cleanup_readFile_none fs' _ p hp
  | error e => simpa [hres] using cleanup_readFile_none fs _ p hp

theorem C9_temp_dir_removed_on_every_path_witness :
    TraceScrubber.underDir (TraceScrubber.tempDirFor "/w" "t/bad.zip")
        "/w/.trace-scrubber-temp/bad/x.json" = true
    ∧ readFile (TraceScrubber.scrubFile { rules := [] } "/w" fsC9 "t/bad.zip").2
        "/w/.trace-scrubber-temp/bad/x.json" = none :=
  ⟨rfl, C9_temp_dir_removed_on_every_path { rules := [] } "/w" fsC9 "t/bad.zip"
    "/w/.trace-scrubber-temp/bad/x.json" rfl⟩

end Scrub
